import Mathlib

/-!
go-pterodactyl: request pipeline and pagination walker

A shallow embedding of `internal/crud/service.go`, `internal/requester/requester.go`,
`client.go` (`NewClient` and its options, `Client.NewRequest`, `Client.Do`),
`internal/testutil/mock_requester.go` and four service functions
(`serversService.GetExternal`, `filesService.GetContents`, `schedulesService.Details`,
`processCreateOrRotateResponse`), followed by theorems about them.

Conventions of the embedding.

* A Go pointer `*X` is `Option X` (`none` is `nil`); a Go slice `[]X` is
  `Slice X = Option (List X)` (`none` is the nil slice, `some []` an empty,
  allocated one).
* A Go function returning `(a, b, err)` returns the tuple `(a, b, err)` with
  `err : Option GoError`; nothing is assumed about `a`, `b` when `err` is set.
* A run-time panic (nil dereference) is the `Outcome.panicked` result.
* The `for { ... }` loop of `ListAll` has no bound in the source, so its
  embedding takes a fuel argument and answers `none` when the fuel is used up.
* Go `int` is `Int`: the only counter that is incremented is the page number,
  once per HTTP round trip starting from 1.
* Capacity hints of `make` do not change the contents of a slice and are dropped.
* `context.Context` only travels through the calls and is not part of the state.
* The libraries `encoding/json`, `net/url` and `net/http` are not part of the
  repository: JSON decoders, URL parsing and the HTTP exchange are parameters of the
  definitions.
-/

namespace Pterodactyl

/-! ## Go values -/

/-- Byte strings (`[]byte`, and the contents of an `io.Reader`). -/
abbrev Bytes := List UInt8

/-- A Go slice: `none` is the nil slice. -/
abbrev Slice (α : Type) := Option (List α)

/-- Contents of a slice or array, in index order. -/
abbrev Elems (α : Type) := List α

/-- The contents of `make([]X, n)` for a pointer type `X`: `n` nil entries. -/
def nils (α : Type) (n : Nat) : Elems (Option α) := List.replicate n none

/-- Result of running Go code that may panic. -/
inductive Outcome (α : Type) where
  | panicked : Outcome α
  | returned : α → Outcome α
  deriving DecidableEq, Repr

/-- Detail entry of the error envelope `{errors: [{code, status, detail}]}`. -/
structure ErrorDetail where
  Code : String
  Status : String
  Detail : String
  deriving DecidableEq, Repr

/-- Modelled from the spec: the type `errors.APIError` (package `errors` of the
repository), the structured API error `{httpStatusCode, code, status, detail}`
decoded from the error envelope `{errors: [{code, status, detail}, ...]}`.
The source uses the field `HTTPStatusCode` by name. -/
structure APIError where
  HTTPStatusCode : Int
  Errors : List ErrorDetail
  deriving DecidableEq, Repr

/-- Values of the Go interface `error` that the modelled code produces or
passes on. -/
inductive GoError where
  /-- A plain error made of text (`errors.New`, `fmt.Errorf` without `%w`, `io.EOF`). -/
  | msg (text : String) : GoError
  /-- The value `fmt.Errorf(pre + "%w", cause)`. -/
  | wrapped (pre : String) (cause : GoError) : GoError
  /-- A `*errors.APIError` stored in the interface; the pointer may be nil. -/
  | apiError (e : Option APIError) : GoError
  deriving DecidableEq, Repr

/-! ## The `api` data shapes used by the pipeline -/

/-- Modelled from the spec: `api.PaginationOptions`, the page request
`{page, perPage, include}`; field names as the source uses them. -/
structure PaginationOptions where
  Page : Int
  PerPage : Int
  Include : List String
  deriving DecidableEq, Repr

/-- Modelled from the spec: `api.Pagination`, the server-reported counters
`{total, count, per_page, current_page, total_pages}`. -/
structure Pagination where
  Total : Int
  Count : Int
  PerPage : Int
  CurrentPage : Int
  TotalPages : Int
  deriving DecidableEq, Repr

/-- Modelled from the spec: `api.Meta`, `{pagination: Pagination}`. -/
structure Meta where
  Pagination : Pagination
  deriving DecidableEq, Repr

/-- Modelled from the spec: `api.ListItem[T]`, the single-item envelope
`{object, attributes}`; `Attributes` is a `*T` in the source
(`out[i] = item.Attributes` with `out : []*T`). -/
structure ListItem (T : Type) where
  Object : String
  Attributes : Option T
  deriving DecidableEq, Repr

/-- Modelled from the spec: `api.PaginatedResponse[T]`, the list envelope
`{object, data, meta}`; `Data` is a `[]*ListItem[T]` in the source. -/
structure PaginatedResponse (T : Type) where
  Object : String
  Data : List (Option (ListItem T))
  Meta : Meta
  deriving DecidableEq, Repr

/-- The zero value `api.Meta{}`. -/
def Meta.zero : Meta := ⟨⟨0, 0, 0, 0, 0⟩⟩

/-- The zero value `api.PaginatedResponse[T]{}`. -/
def PaginatedResponse.zero (T : Type) : PaginatedResponse T := ⟨"", [], Meta.zero⟩

/-- The zero value `api.ListItem[T]{}`. -/
def ListItem.zero (T : Type) : ListItem T := ⟨"", none⟩

/-! ## HTTP values -/

/-- The parts of a `*http.Request` the pipeline sets. -/
structure HttpRequest where
  Method : String
  URL : String
  Header : List (String × String)
  Body : Option Bytes
  deriving DecidableEq, Repr

/-- The parts of a `*http.Response` the pipeline reads: the status, the bytes of the
body as the server sent them, and whether `Body.Close()` has been called. -/
structure HttpResponse where
  StatusCode : Int
  Body : Bytes
  Closed : Bool
  deriving DecidableEq, Repr

/-! ## `requester.Requester` -/

/-- The interface `requester.Requester`, over an implementation state `σ`.
`NewRequest` and `Do` are its two methods; `Do` takes `v any`, and the three
fields `DoPaginated`, `DoItem`, `DoNil` are `Do` at the three dynamic types of `v`
that package `crud` passes: `*api.PaginatedResponse[T]`, `*api.ListItem[T]` and
`nil`. A method returns the new state, the new contents of `*v`, and its Go
results. The `options` argument is the value `*options` at the time of the call. -/
structure Requester (σ T : Type) where
  NewRequest : σ → (method endpoint : String) → (body : Option Bytes) →
    (options : Option PaginationOptions) →
    Outcome (σ × Option HttpRequest × Option GoError)
  DoPaginated : σ → Option HttpRequest → PaginatedResponse T →
    Outcome (σ × PaginatedResponse T × Option HttpResponse × Option GoError)
  DoItem : σ → Option HttpRequest → ListItem T →
    Outcome (σ × ListItem T × Option HttpResponse × Option GoError)
  DoNil : σ → Option HttpRequest →
    Outcome (σ × Option HttpResponse × Option GoError)

/-! ## Package `crud` -/

/-- The loop `for i, item := range resp.Data { out[i] = item.Attributes }` of
`crud.List`, started at index `i` with `data` the entries still to visit.
`item` is a `*api.ListItem[T]`; reading `item.Attributes` of a nil `item` panics. -/
def crud.listFill {T : Type} :
    Elems (Option (ListItem T)) → Nat → Elems (Option T) → Outcome (Elems (Option T))
  | [], _, out => .returned out
  | none :: _, _, _ => .panicked
  | some item :: rest, i, out => crud.listFill rest (i + 1) (out.set i item.Attributes)

/-- The function `crud.List`: results `(items, meta, err)`. -/
def crud.List {σ T : Type} (c : Requester σ T) (s : σ) (path : String)
    (opt : Option PaginationOptions) :
    Outcome (σ × Slice (Option T) × Option Meta × Option GoError) :=
  match c.NewRequest s "GET" path none opt with
  | .panicked => .panicked
  | .returned (s1, _, some err) => .returned (s1, none, none, some err)
  | .returned (s1, req, none) =>
    match c.DoPaginated s1 req (PaginatedResponse.zero T) with
    | .panicked => .panicked
    | .returned (s2, _, _, some err) => .returned (s2, none, none, some err)
    | .returned (s2, resp, _, none) =>
      match crud.listFill resp.Data 0 (nils T resp.Data.length) with
      | .panicked => .panicked
      | .returned out => .returned (s2, some out, some resp.Meta, none)

/-- The `for { ... }` loop of `crud.ListAll`, with `opts` the current contents of
`*opts` and `all` the accumulator. `none`: the fuel ran out before the loop ended. -/
def crud.listAllLoop {σ T : Type} (c : Requester σ T) (path : String) :
    Nat → σ → PaginationOptions → Elems (Option T) →
    Option (Outcome (σ × Slice (Option T) × Option GoError))
  | 0, _, _, _ => none
  | fuel + 1, s, opts, all =>
    match crud.List c s path (some opts) with
    | .panicked => some .panicked
    | .returned (s1, _, _, some err) => some (.returned (s1, none, some err))
    | .returned (s1, items, meta, none) =>
      let all1 := all ++ items.getD []
      match meta with
      | none => some .panicked
      | some m =>
        if m.Pagination.CurrentPage ≥ m.Pagination.TotalPages then
          some (.returned (s1, some all1, none))
        else
          crud.listAllLoop c path fuel s1 { opts with Page := opts.Page + 1 } all1

/-- The function `crud.ListAll`: results `(all, err)`. -/
def crud.ListAll {σ T : Type} (c : Requester σ T) (s : σ) (path : String)
    (perPage : Int) (fuel : Nat) :
    Option (Outcome (σ × Slice (Option T) × Option GoError)) :=
  let perPage := if perPage ≤ 0 then 100 else perPage
  crud.listAllLoop c path fuel s { PerPage := perPage, Page := 1, Include := [] } []

/-- The endpoint `fmt.Sprintf("%s/%d", path, id)`. -/
def crud.itemEndpoint (path : String) (id : Int) : String :=
  path ++ "/" ++ toString id

/-- The function `crud.Get`: results `(item, err)`. -/
def crud.Get {σ T : Type} (c : Requester σ T) (s : σ) (path : String) (id : Int) :
    Outcome (σ × Option T × Option GoError) :=
  match c.NewRequest s "GET" (crud.itemEndpoint path id) none none with
  | .panicked => .panicked
  | .returned (s1, _, some err) => .returned (s1, none, some err)
  | .returned (s1, req, none) =>
    match c.DoItem s1 req (ListItem.zero T) with
    | .panicked => .panicked
    | .returned (s2, _, _, some err) => .returned (s2, none, some err)
    | .returned (s2, resp, _, none) => .returned (s2, resp.Attributes, none)

/-- The function `crud.Delete`: result `err`. -/
def crud.Delete {σ T : Type} (c : Requester σ T) (s : σ) (path : String) (id : Int) :
    Outcome (σ × Option GoError) :=
  match c.NewRequest s "DELETE" (crud.itemEndpoint path id) none none with
  | .panicked => .panicked
  | .returned (s1, _, some err) => .returned (s1, some err)
  | .returned (s1, req, none) =>
    match c.DoNil s1 req with
    | .panicked => .panicked
    | .returned (s2, _, err) => .returned (s2, err)

/-! ## `Client.Do` -/

/-- The fields of `http.Client` of `net/http`; `ρ` is the type of round trippers,
`CheckRedirect` and `Jar` are handles of a function and of a cookie jar, `Timeout`
is a `time.Duration` in nanoseconds. -/
structure HttpClient (ρ : Type) where
  Transport : Option ρ
  CheckRedirect : Option Nat
  Jar : Option Nat
  Timeout : Int
  deriving DecidableEq, Repr

/-- The struct `Client`: base URL, credential and the `*http.Client`. -/
structure Client (ρ : Type) where
  baseURL : String
  apiKey : String
  httpClient : Option (HttpClient ρ)
  deriving DecidableEq, Repr

/-- The call `httpClient.Do(req)` of `net/http` against the outside world `ω`:
it yields a response or a transport error. -/
abbrev Exchange (ρ ω : Type) :=
  HttpClient ρ → ω → HttpRequest → ω × (GoError ⊕ HttpResponse)

/-- The call `json.NewDecoder(body).Decode(&x)` for a target `x : V`: the new
contents of `x` and the decoder's error. -/
abbrev Decoder (V : Type) := Bytes → V → V × Option GoError

/-- Modelled from the spec: how a body is decoded into an `errors.APIError` that is
already there. The error envelope `{errors: [{code, status, detail}, ...]}` fills the
detail entries and holds no status code, so a decode that succeeds and leaves a
non-nil `*APIError` leaves its `HTTPStatusCode` as it was. -/
def KeepsStatus (decodeErr : Decoder (Option APIError)) : Prop :=
  ∀ (body : Bytes) (before after : APIError),
    decodeErr body (some before) = (some after, none) →
    after.HTTPStatusCode = before.HTTPStatusCode

/-- The text `"pterodactyl: API error (status %d), failed to parse error response: "`
in front of the wrapped decoder error. -/
def Client.unparseableText (status : Int) : String :=
  "pterodactyl: API error (status " ++ toString status ++
    "), failed to parse error response: "

/-- The method `Client.Do`, for a decode target `v` that is nil or points to a `V`.
`decodeErr` decodes into the variable `apiErr` of type `*errors.APIError`,
`decode` into `*v`. Results: the new contents of `*v`, and `(res, err)`. The deferred
`res.Body.Close()` has run when `Do` returns, so a response it returns is closed. -/
def Client.Do {ρ ω V : Type} (exchange : Exchange ρ ω)
    (decodeErr : Decoder (Option APIError)) (decode : Decoder V)
    (c : Client ρ) (w : ω) (req : Option HttpRequest) (v : Option V) :
    Outcome (ω × Option V × Option HttpResponse × Option GoError) :=
  match req, c.httpClient with
  | none, _ => .panicked
  | some _, none => .panicked
  | some rq, some hc =>
    match exchange hc w rq with
    | (w1, .inl err) =>
      .returned (w1, v, none, some (.wrapped "failed to execute request: " err))
    | (w1, .inr res) =>
      if res.StatusCode < 200 ∨ res.StatusCode ≥ 300 then
        match decodeErr res.Body (some { HTTPStatusCode := res.StatusCode, Errors := [] }) with
        | (_, some err) =>
          .returned (w1, v, none, some (.wrapped (Client.unparseableText res.StatusCode) err))
        | (apiErr, none) => .returned (w1, v, none, some (.apiError apiErr))
      else
        match v with
        | none => .returned (w1, none, some { res with Closed := true }, none)
        | some tgt =>
          match decode res.Body tgt with
          | (tgt1, some err) =>
            .returned (w1, some tgt1, none,
              some (.wrapped "failed to decode successful response: " err))
          | (tgt1, none) => .returned (w1, some tgt1, some { res with Closed := true }, none)

/-- `Client.Do` with a non-nil target `v`, returning the contents of `*v` itself. -/
def Client.DoInto {ρ ω V : Type} (exchange : Exchange ρ ω)
    (decodeErr : Decoder (Option APIError)) (decode : Decoder V)
    (c : Client ρ) (w : ω) (req : Option HttpRequest) (v : V) :
    Outcome (ω × V × Option HttpResponse × Option GoError) :=
  match Client.Do exchange decodeErr decode c w req (some v) with
  | .panicked => .panicked
  | .returned (w1, v1, res, err) => .returned (w1, v1.getD v, res, err)

/-- `Client.Do` with the nil target. -/
def Client.DoNil {ρ ω : Type} (exchange : Exchange ρ ω)
    (decodeErr : Decoder (Option APIError))
    (c : Client ρ) (w : ω) (req : Option HttpRequest) :
    Outcome (ω × Option HttpResponse × Option GoError) :=
  match Client.Do exchange decodeErr (fun _ (u : Unit) => (u, none)) c w req none with
  | .panicked => .panicked
  | .returned (w1, _, res, err) => .returned (w1, res, err)

/-- The `*Client` as a `requester.Requester`: `Do` is `Client.Do`; `newRequest`
stands for its method `NewRequest`. -/
def Client.requester {ρ ω T : Type} (exchange : Exchange ρ ω)
    (decodeErr : Decoder (Option APIError))
    (decodePaginated : Decoder (PaginatedResponse T)) (decodeItem : Decoder (ListItem T))
    (newRequest : ω → String → String → Option Bytes → Option PaginationOptions →
      Outcome (ω × Option HttpRequest × Option GoError))
    (c : Client ρ) : Requester ω T where
  NewRequest := newRequest
  DoPaginated := Client.DoInto exchange decodeErr decodePaginated c
  DoItem := Client.DoInto exchange decodeErr decodeItem c
  DoNil := Client.DoNil exchange decodeErr c

/-! ## `Client.NewRequest` -/

/-- `url.Values` of `net/url`: the map from a key to its values. -/
abbrev Values := String → Option (List String)

/-- The empty `url.Values`. -/
def Values.empty : Values := fun _ => none

/-- The method `Values.Set`: the key gets the single value `value`. -/
def Values.Set (q : Values) (key value : String) : Values :=
  fun k => if k = key then some [value] else q k

/-- The fields of a `*url.URL`. -/
structure URL where
  Scheme : String
  Opaque : String
  Host : String
  Path : String
  RawQuery : String
  Fragment : String
  deriving DecidableEq, Repr

/-- The functions of `net/url` and `net/http` that `client.go` calls. -/
structure NetLib where
  /-- `url.Parse`. -/
  Parse : String → GoError ⊕ URL
  /-- `url.ParseRequestURI`. -/
  ParseRequestURI : String → GoError ⊕ URL
  /-- The method `(*URL).Query`. -/
  Query : URL → Values
  /-- The method `Values.Encode`. -/
  Encode : Values → String
  /-- The method `(*URL).ResolveReference`. -/
  ResolveReference : URL → URL → URL
  /-- The method `(*URL).String`. -/
  URLString : URL → String
  /-- The error of `http.NewRequestWithContext` for a method and a URL, if any. -/
  RequestError : String → String → Option GoError

/-- The method `Header.Set` for a key in canonical form: the key gets the single
value `value`. -/
def headerSet (h : List (String × String)) (key value : String) : List (String × String) :=
  h.filter (fun kv => kv.1 ≠ key) ++ [(key, value)]

/-- The method `Header.Get` for a key in canonical form; `none` when the key is absent. -/
def headerGet (h : List (String × String)) (key : String) : Option String :=
  (h.find? (fun kv => kv.1 = key)).map (fun kv => kv.2)

/-- The body of `if options != nil { ... }` in `Client.NewRequest`, from the query
`q := rel.Query()` to the query that is encoded into `rel.RawQuery`. -/
def Client.requestQuery (q : Values) (options : PaginationOptions) : Values :=
  let q1 := if options.Page > 0 then q.Set "page" (toString options.Page) else q
  let q2 := if options.PerPage > 0 then q1.Set "per_page" (toString options.PerPage) else q1
  if options.Include.length > 0 then
    q2.Set "include" (String.intercalate "," options.Include)
  else q2

/-- The reference `rel` of `Client.NewRequest` after the `if options != nil` block. -/
def Client.requestRef (lib : NetLib) (rel : URL) : Option PaginationOptions → URL
  | none => rel
  | some options => { rel with RawQuery := lib.Encode (Client.requestQuery (lib.Query rel) options) }

/-- The header of the request `Client.NewRequest` returns: it starts from the empty
header of `http.NewRequestWithContext`. -/
def Client.requestHeader (apiKey : String) (body : Option Bytes) : List (String × String) :=
  let h1 := headerSet [] "Authorization" ("Bearer " ++ apiKey)
  let h2 := headerSet h1 "Accept" "application/json"
  match body with
  | some _ => headerSet h2 "Content-Type" "application/json"
  | none => h2

/-- The method `Client.NewRequest`: results `(req, err)`. A request made by
`http.NewRequestWithContext` has the method (`GET` for the empty one), the URL, an
empty header and the body. -/
def Client.NewRequest {ρ : Type} (lib : NetLib) (c : Client ρ) (method endpoint : String)
    (body : Option Bytes) (options : Option PaginationOptions) :
    Option HttpRequest × Option GoError :=
  match lib.Parse endpoint with
  | .inl err => (none, some err)
  | .inr rel =>
    match lib.Parse c.baseURL with
    | .inl err => (none, some err)
    | .inr u =>
      let fullURL := lib.ResolveReference u (Client.requestRef lib rel options)
      match lib.RequestError method (lib.URLString fullURL) with
      | some err => (none, some (.wrapped "failed to create request: " err))
      | none =>
        (some { Method := if method = "" then "GET" else method
                URL := lib.URLString fullURL
                Header := Client.requestHeader c.apiKey body
                Body := body }, none)

/-- The `*Client` as a `requester.Requester` with both of its methods. -/
def Client.asRequester {ρ ω T : Type} (lib : NetLib) (exchange : Exchange ρ ω)
    (decodeErr : Decoder (Option APIError))
    (decodePaginated : Decoder (PaginatedResponse T)) (decodeItem : Decoder (ListItem T))
    (c : Client ρ) : Requester ω T :=
  Client.requester exchange decodeErr decodePaginated decodeItem
    (fun w method endpoint body options =>
      match Client.NewRequest lib c method endpoint body options with
      | (req, err) => .returned (w, req, err))
    c

/-! ## `NewClient` and its options -/

/-- The type `KeyType`, an `int`. -/
abbrev KeyType := Int

/-- The constant `ApplicationKey`. -/
def ApplicationKey : KeyType := 0

/-- The constant `ClientKey`. -/
def ClientKey : KeyType := 1

/-- `strings.HasPrefix(s, pre)`. -/
def startsWith (s pre : String) : Bool := pre.data.isPrefixOf s.data

/-- The type `Option` of `client.go`, `func(*Client)`: what the function does to the
client it is given. -/
abbrev ClientOption (ρ : Type) := Client ρ → Client ρ

/-- The option `WithHTTPClient(hc)`; `hc` may be nil. -/
def WithHTTPClient {ρ : Type} (hc : Option (HttpClient ρ)) : ClientOption ρ :=
  fun c => { c with httpClient := hc }

/-- The option `WithTransport(rt)`. -/
def WithTransport {ρ : Type} (rt : Option ρ) : ClientOption ρ :=
  fun c =>
    match c.httpClient with
    | none => { c with httpClient := some ⟨rt, none, none, 0⟩ }
    | some hc => { c with httpClient := some { hc with Transport := rt } }

/-- The option `WithTimeout(d)`. -/
def WithTimeout {ρ : Type} (d : Int) : ClientOption ρ :=
  fun c =>
    match c.httpClient with
    | none => { c with httpClient := some ⟨none, none, none, d⟩ }
    | some hc => { c with httpClient := some { hc with Timeout := d } }

/-- The duration `10 * time.Second`, in nanoseconds. -/
def tenSeconds : Int := 10 * 1000000000

/-- The client `NewClient` builds before it applies the options. -/
def defaultClient (ρ : Type) (baseURL apiKey : String) : Client ρ :=
  { baseURL := baseURL, apiKey := apiKey, httpClient := some ⟨none, none, none, tenSeconds⟩ }

/-- The loop `for _, o := range opts { o(c) }`. -/
def applyOptions {ρ : Type} (c : Client ρ) : List (ClientOption ρ) → Client ρ
  | [] => c
  | o :: rest => applyOptions (o c) rest

/-- The function `NewClient`: results `(client, err)`. The services it wires in the
end only keep a reference to the client. -/
def NewClient {ρ : Type} (lib : NetLib) (baseURL apiKey : String) (keyType : KeyType)
    (opts : List (ClientOption ρ)) : Option (Client ρ) × Option GoError :=
  if keyType = ApplicationKey ∧ ¬ startsWith apiKey "ptla_" then
    (none, some (.msg "invalid application key: must start with \x27ptla_\x27"))
  else if keyType = ClientKey ∧ ¬ startsWith apiKey "ptlc_" then
    (none, some (.msg "invalid client key: must start with \x27ptlc_\x27"))
  else
    match lib.ParseRequestURI baseURL with
    | .inl err => (none, some (.wrapped "invalid baseURL: " err))
    | .inr _ => (some (applyOptions (defaultClient ρ baseURL apiKey) opts), none)

/-! ## `testutil.MockRequester` -/

/-- The struct `MockRequest`; `Options` holds the value `*options` had at the call. -/
structure MockRequest where
  Method : String
  Endpoint : String
  Body : Option Bytes
  Options : Option PaginationOptions
  deriving DecidableEq, Repr

/-- The struct `MockResponse`. -/
structure MockResponse where
  StatusCode : Int
  Body : Bytes
  Err : Option GoError
  deriving DecidableEq, Repr

/-- The struct `MockRequester`. -/
structure MockRequester where
  Requests : List MockRequest
  Responses : List MockResponse
  CurrentIndex : Int
  deriving DecidableEq, Repr

/-- The method `MockRequester.NewRequest`: it logs the request and returns a request
for `"http://test.com" + endpoint`, or nil when `http.NewRequestWithContext` fails,
with a nil error in both cases. -/
def MockRequester.NewRequest (lib : NetLib) (m : MockRequester) (method endpoint : String)
    (body : Option Bytes) (options : Option PaginationOptions) :
    MockRequester × Option HttpRequest × Option GoError :=
  let m1 := { m with Requests := m.Requests ++ [⟨method, endpoint, body, options⟩] }
  match lib.RequestError method ("http://test.com" ++ endpoint) with
  | some _ => (m1, none, none)
  | none =>
    (m1, some { Method := if method = "" then "GET" else method
                URL := "http://test.com" ++ endpoint
                Header := []
                Body := some (body.getD []) }, none)

/-- The method `MockRequester.Do`, for a decode target `v` that is nil or points to
a `V`. `decode` decodes into `*v`, `decodeErr` into the struct `*apiErr`. The
request is not read. Results: the new contents of `*v`, and `(res, err)`. -/
def MockRequester.Do {V : Type} (decode : Decoder V) (decodeErr : Decoder APIError)
    (m : MockRequester) (_ : Option HttpRequest) (v : Option V) :
    Outcome (MockRequester × Option V × Option HttpResponse × Option GoError) :=
  if m.CurrentIndex ≥ m.Responses.length then
    .returned (m, v, none, some (.msg "no more mock Responses available"))
  else
    match m.CurrentIndex, m.Responses.get? m.CurrentIndex.toNat with
    | .negSucc _, _ => .panicked
    | .ofNat _, none => .panicked
    | .ofNat _, some response =>
      let m1 := { m with CurrentIndex := m.CurrentIndex + 1 }
      match response.Err with
      | some err => .returned (m1, v, none, some err)
      | none =>
        let decoded : Option V × Option GoError :=
          match v with
          | some tgt =>
            if response.StatusCode ≥ 200 ∧ response.StatusCode < 300 then
              (some (decode response.Body tgt).1, (decode response.Body tgt).2)
            else (some tgt, none)
          | none => (none, none)
        match decoded with
        | (v1, some err) => .returned (m1, v1, none, some err)
        | (v1, none) =>
          if response.StatusCode ≥ 400 then
            if response.Body.length > 0 then
              match decodeErr response.Body { HTTPStatusCode := response.StatusCode, Errors := [] } with
              | (_, some err) => .returned (m1, v1, none, some err)
              | (apiErr, none) => .returned (m1, v1, none, some (.apiError (some apiErr)))
            else
              .returned (m1, v1, none,
                some (.apiError (some { HTTPStatusCode := response.StatusCode, Errors := [] })))
          else
            .returned (m1, v1, some ⟨response.StatusCode, response.Body, false⟩, none)

/-- Whether a call of `Do` returned with a non-nil error. -/
def returnsError {σ V : Type} :
    Outcome (σ × Option V × Option HttpResponse × Option GoError) → Bool
  | .returned (_, _, _, some _) => true
  | _ => false

/-! ## Service wrappers -/

/-- The interface `requester.Requester` as seen by a caller whose `Do` passes a
non-nil decode target of type `*V`. -/
structure RequesterAt (σ V : Type) where
  NewRequest : σ → (method endpoint : String) → (body : Option Bytes) →
    (options : Option PaginationOptions) →
    Outcome (σ × Option HttpRequest × Option GoError)
  Do : σ → Option HttpRequest → V →
    Outcome (σ × V × Option HttpResponse × Option GoError)

/-- The digit `"0123456789ABCDEF"[n]` for `n < 16`. -/
def upperHex (n : Nat) : Char :=
  if n < 10 then Char.ofNat (48 + n) else Char.ofNat (55 + n)

/-- The escape `%XX` of a byte, as `net/url` writes it. -/
def percentByte (b : UInt8) : List Char :=
  ['%', upperHex (b.toNat / 16), upperHex (b.toNat % 16)]

/-- The characters `url.PathEscape` leaves as they are: the unreserved ones
(letters, digits, `-`, `_`, `.`, `~`) and the reserved ones a path segment may hold
(`$`, `&`, `+`, `=`, `:`, `@`). -/
def keptInSegment (c : Char) : Bool :=
  c.isAlphanum || c ∈ ['-', '_', '.', '~', '$', '&', '+', '=', ':', '@']

/-- The unreserved characters of RFC 3986: letters, digits, `-`, `_`, `.`, `~`. -/
def unreserved (c : Char) : Bool :=
  c.isAlphanum || c ∈ ['-', '_', '.', '~']

/-- The function `url.PathEscape` of `net/url`: every byte of the UTF-8 form of `s`
that is not left as it is becomes `%XX`. -/
def pathEscape (s : String) : String :=
  ⟨s.data.flatMap (fun c =>
    if keptInSegment c then [c] else (String.utf8EncodeChar c).flatMap percentByte)⟩

/-- The endpoint of `serversService.GetExternal`. -/
def serversService.externalEndpoint (externalID : String) : String :=
  "/api/application/servers/external/" ++ pathEscape externalID

/-- The method `serversService.GetExternal`: results `(server, err)`. -/
def serversService.GetExternal {σ T : Type} (c : Requester σ T) (s : σ)
    (externalID : String) : Outcome (σ × Option T × Option GoError) :=
  match c.NewRequest s "GET" (serversService.externalEndpoint externalID) none none with
  | .panicked => .panicked
  | .returned (s1, _, some err) =>
    .returned (s1, none, some (.wrapped "failed to create get external server request: " err))
  | .returned (s1, req, none) =>
    match c.DoItem s1 req (ListItem.zero T) with
    | .panicked => .panicked
    | .returned (s2, _, _, some err) => .returned (s2, none, some err)
    | .returned (s2, response, _, none) => .returned (s2, response.Attributes, none)

/-- The method `filesService.GetContents`: results `(contents, err)`, the contents
as the bytes of the Go string. `queryEscape` is `url.QueryEscape` and `readAll` is
`io.ReadAll` on the body of a response. -/
def filesService.GetContents {σ T : Type} (c : Requester σ T)
    (queryEscape : String → String) (readAll : HttpResponse → Bytes × Option GoError)
    (s : σ) (serverIdentifier filePath : String) : Outcome (σ × Bytes × Option GoError) :=
  match c.NewRequest s "GET"
      ("/api/client/servers/" ++ serverIdentifier ++ "/files/contents?file=" ++
        queryEscape filePath) none none with
  | .panicked => .panicked
  | .returned (s1, _, some err) =>
    .returned (s1, [], some (.wrapped "failed to create get contents request: " err))
  | .returned (s1, req, none) =>
    match c.DoNil s1 req with
    | .panicked => .panicked
    | .returned (s2, _, some err) => .returned (s2, [], some err)
    | .returned (_, none, none) => .panicked
    | .returned (s2, some httpRes, none) =>
      match readAll httpRes with
      | (_, some err) =>
        .returned (s2, [], some (.wrapped "failed to read response body: " err))
      | (bodyBytes, none) => .returned (s2, bodyBytes, none)

/-- The anonymous struct of the field `Host` of `api.ClientDatabase`. -/
structure DatabaseHost where
  Address : String
  Port : Int
  deriving DecidableEq, Repr

/-- Modelled from the spec: `api.ClientDatabase`, with the fields the source names. -/
structure ClientDatabase where
  ID : String
  Name : String
  Username : String
  ConnectionsFrom : String
  Host : DatabaseHost
  Password : String
  deriving DecidableEq, Repr

/-- The anonymous struct `{Password string}` under `relationships.password.attributes`. -/
structure PasswordAttributes where
  Password : String
  deriving DecidableEq, Repr

/-- The anonymous struct `{Object, Attributes}` under `relationships.password`. -/
structure PasswordEnvelope where
  Object : String
  Attributes : Option PasswordAttributes
  deriving DecidableEq, Repr

/-- The anonymous struct `{Password}` of the field `Relationships`. -/
structure DatabaseRelationships where
  Password : Option PasswordEnvelope
  deriving DecidableEq, Repr

/-- Modelled from the spec: `api.ClientDatabaseCreateResponse`, as the source and its
test build it. -/
structure ClientDatabaseCreateResponse where
  Object : String
  Attributes : Option ClientDatabase
  Relationships : Option DatabaseRelationships
  deriving DecidableEq, Repr

/-- The function `processCreateOrRotateResponse`. `db` is the pointer
`res.Attributes`; writing `db.Password` through a nil `db` panics, as does reading a
nil `res`. -/
def processCreateOrRotateResponse :
    Option ClientDatabaseCreateResponse → Outcome (Option ClientDatabase)
  | none => .panicked
  | some res =>
    match res.Relationships with
    | none => .returned res.Attributes
    | some relationships =>
      match relationships.Password with
      | none => .returned res.Attributes
      | some password =>
        match password.Attributes with
        | none => .returned res.Attributes
        | some attributes =>
          match res.Attributes with
          | none => .panicked
          | some db => .returned (some { db with Password := attributes.Password })

/-- Modelled from the spec: `api.Task`, with the fields the source names. -/
structure Task where
  ID : Int
  Action : String
  Payload : String
  deriving DecidableEq, Repr

/-- Modelled from the spec: `api.Schedule`, with the fields the source names;
`CreatedAt` is a `time.Time`, kept as a number. -/
structure Schedule where
  ID : Int
  Name : String
  IsActive : Bool
  CreatedAt : Int
  Tasks : Slice (Option Task)
  deriving DecidableEq, Repr

/-- The anonymous struct `{Tasks *api.PaginatedResponse[api.Task]}` of the field
`Relationships`. -/
structure ScheduleRelationships where
  Tasks : Option (PaginatedResponse Task)
  deriving DecidableEq, Repr

/-- Modelled from the spec: `api.ScheduleDetailResponse`, as the source and its test
build it. -/
structure ScheduleDetailResponse where
  Object : String
  Attributes : Option Schedule
  Relationships : Option ScheduleRelationships
  deriving DecidableEq, Repr

/-- The zero value `api.ScheduleDetailResponse{}`. -/
def ScheduleDetailResponse.zero : ScheduleDetailResponse := ⟨"", none, none⟩

/-- The loop `for i, item := range res.Relationships.Tasks.Data { tasks[i] =
item.Attributes }` of `schedulesService.Details`, started at index `i`. -/
def schedulesService.fillTasks :
    Elems (Option (ListItem Task)) → Nat → Elems (Option Task) → Outcome (Elems (Option Task))
  | [], _, tasks => .returned tasks
  | none :: _, _, _ => .panicked
  | some item :: rest, i, tasks =>
    schedulesService.fillTasks rest (i + 1) (tasks.set i item.Attributes)

/-- The part of `schedulesService.Details` after `Do`: from the decoded response to
the schedule it returns. `schedule` is the pointer `res.Attributes`; writing
`schedule.Tasks` through a nil `schedule` panics. -/
def schedulesService.populateTasks (res : ScheduleDetailResponse) : Outcome (Option Schedule) :=
  match res.Relationships with
  | none => .returned res.Attributes
  | some relationships =>
    match relationships.Tasks with
    | none => .returned res.Attributes
    | some list =>
      match schedulesService.fillTasks list.Data 0 (nils Task list.Data.length) with
      | .panicked => .panicked
      | .returned tasks =>
        match res.Attributes with
        | none => .panicked
        | some schedule => .returned (some { schedule with Tasks := some tasks })

/-- The method `schedulesService.Details`: results `(schedule, err)`. -/
def schedulesService.Details {σ : Type} (c : RequesterAt σ ScheduleDetailResponse) (s : σ)
    (serverIdentifier : String) (scheduleID : Int) :
    Outcome (σ × Option Schedule × Option GoError) :=
  match c.NewRequest s "GET"
      ("/api/client/servers/" ++ serverIdentifier ++ "/schedules/" ++ toString scheduleID)
      none none with
  | .panicked => .panicked
  | .returned (s1, _, some err) =>
    .returned (s1, none, some (.wrapped "failed to create schedule details request: " err))
  | .returned (s1, req, none) =>
    match c.Do s1 req ScheduleDetailResponse.zero with
    | .panicked => .panicked
    | .returned (s2, _, _, some err) => .returned (s2, none, some err)
    | .returned (s2, res, _, none) =>
      match schedulesService.populateTasks res with
      | .panicked => .panicked
      | .returned schedule => .returned (s2, schedule, none)

/-! ## Observing the calls a `crud` function makes -/

/-- The dynamic type of the decode target handed to `Do`. -/
inductive TargetKind where
  | nilTarget
  | paginated
  | item
  deriving DecidableEq, Repr

/-- One call on a requester, with its arguments as they were at the call. -/
inductive Call where
  | newRequest (method endpoint : String) (body : Option Bytes)
      (options : Option PaginationOptions)
  | doCall (req : Option HttpRequest) (target : TargetKind)
  deriving DecidableEq, Repr

/-- The requester `c` with a log of the calls made on it; it answers as `c` does. -/
def Requester.traced {σ T : Type} (c : Requester σ T) : Requester (σ × List Call) T where
  NewRequest := fun sl method endpoint body options =>
    match c.NewRequest sl.1 method endpoint body options with
    | .panicked => .panicked
    | .returned (s1, req, err) =>
      .returned ((s1, sl.2 ++ [.newRequest method endpoint body options]), req, err)
  DoPaginated := fun sl req v =>
    match c.DoPaginated sl.1 req v with
    | .panicked => .panicked
    | .returned (s1, v1, res, err) =>
      .returned ((s1, sl.2 ++ [.doCall req .paginated]), v1, res, err)
  DoItem := fun sl req v =>
    match c.DoItem sl.1 req v with
    | .panicked => .panicked
    | .returned (s1, v1, res, err) =>
      .returned ((s1, sl.2 ++ [.doCall req .item]), v1, res, err)
  DoNil := fun sl req =>
    match c.DoNil sl.1 req with
    | .panicked => .panicked
    | .returned (s1, res, err) =>
      .returned ((s1, sl.2 ++ [.doCall req .nilTarget]), res, err)

/-- The `NewRequest` calls of a log, in order: `(method, endpoint, body, options)`. -/
def requestsOf : List Call → List (String × String × Option Bytes × Option PaginationOptions)
  | [] => []
  | .newRequest m e b o :: rest => (m, e, b, o) :: requestsOf rest
  | .doCall _ _ :: rest => requestsOf rest

/-- The `Do` calls of a log, in order: `(request, kind of decode target)`. -/
def executionsOf : List Call → List (Option HttpRequest × TargetKind)
  | [] => []
  | .newRequest _ _ _ _ :: rest => executionsOf rest
  | .doCall r k :: rest => (r, k) :: executionsOf rest

/-! ## A scripted requester -/

/-- What a scripted requester answers to one `Do`. -/
inductive Answer (T : Type) where
  /-- `Do` fails with the error. -/
  | fails (err : GoError)
  /-- `Do` succeeds with the status and fills a paginated target with `r`. -/
  | page (status : Int) (r : PaginatedResponse T)
  /-- `Do` succeeds with the status and fills a single-item target with `r`. -/
  | single (status : Int) (r : ListItem T)
  /-- `Do` succeeds with the status and writes nothing. -/
  | empty (status : Int)
  deriving DecidableEq, Repr

/-- The request a scripted requester builds. -/
def scriptedRequest (method endpoint : String) (body : Option Bytes) : HttpRequest :=
  { Method := method, URL := "http://test.com" ++ endpoint, Header := [], Body := body }

/-- What `Do` of a scripted requester returns besides the target: its state is
the number of `Do` calls answered so far. -/
def scriptedResult {T : Type} (script : List (Answer T)) (n : Nat) :
    Option HttpResponse × Option GoError :=
  match script.get? n with
  | none => (none, some (.msg "no more responses"))
  | some (.fails err) => (none, some err)
  | some (.page status _) => (some ⟨status, [], false⟩, none)
  | some (.single status _) => (some ⟨status, [], false⟩, none)
  | some (.empty status) => (some ⟨status, [], false⟩, none)

/-- A requester that builds every request without error and answers the `n`-th
`Do` with the `n`-th entry of `script`, in the manner of a test double. -/
def scripted {T : Type} (script : List (Answer T)) : Requester Nat T where
  NewRequest := fun n method endpoint body _ =>
    .returned (n, some (scriptedRequest method endpoint body), none)
  DoPaginated := fun n _ v =>
    .returned (n + 1,
      (match script.get? n with
        | some (.page _ r) => r
        | _ => v),
      scriptedResult script n)
  DoItem := fun n _ v =>
    .returned (n + 1,
      (match script.get? n with
        | some (.single _ r) => r
        | _ => v),
      scriptedResult script n)
  DoNil := fun n _ => .returned (n + 1, scriptedResult script n)

/-! ## Runs of the pagination walk -/

/-- The contents of `*opts` when the walk asks for its `k`-th page, `k` counted
from 0: page number `k + 1`, the walk's page size, no includes. -/
def pageOptions (perPage : Int) (k : Nat) : PaginationOptions :=
  { Page := (k : Int) + 1, PerPage := perPage, Include := [] }

/-- The requester `c` answers the first `n` page fetches of a walk over `path`
with success: started in state `st k`, the fetch of page `k + 1` returns the
items `items k` and the metadata `meta k`, and leaves `c` in state `st (k + 1)`. -/
def ServesPages {σ T : Type} (c : Requester σ T) (path : String) (perPage : Int)
    (st : Nat → σ) (items : Nat → List (Option T)) (meta : Nat → Meta) (n : Nat) : Prop :=
  ∀ k, k < n →
    crud.List c (st k) path (some (pageOptions perPage k)) =
      .returned (st (k + 1), some (items k), some (meta k), none)

/-- The walk goes on after page `k + 1`: `current_page < total_pages`. -/
def Continues (meta : Nat → Meta) (k : Nat) : Prop :=
  ¬ (meta k).Pagination.CurrentPage ≥ (meta k).Pagination.TotalPages

/-- The calls one `crud.List` makes on `c` from state `s`: a `NewRequest`, and
a `Do` when the request was built. -/
def listCalls {σ T : Type} (c : Requester σ T) (s : σ) (path : String)
    (opt : Option PaginationOptions) : List Call :=
  match c.NewRequest s "GET" path none opt with
  | .returned (_, req, none) => [.newRequest "GET" path none opt, .doCall req .paginated]
  | _ => [.newRequest "GET" path none opt]

/-- The calls of the first `k` page fetches of a walk through the states `st`. -/
def walkLog {σ T : Type} (c : Requester σ T) (path : String) (perPage : Int)
    (st : Nat → σ) : Nat → List Call
  | 0 => []
  | k + 1 => walkLog c path perPage st k ++
      listCalls c (st k) path (some (pageOptions perPage k))

/-- The items of pages `1 .. n` one after the other. -/
def pagesConcat {T : Type} (items : Nat → List (Option T)) (n : Nat) : List (Option T) :=
  ((List.range n).map items).flatten

/-! ## Sample data -/

/-- A page answer with status 200: items `xs`, `current_page = cur`,
`total_pages = tot`. -/
def samplePage (cur tot : Int) (xs : List Nat) : Answer Nat :=
  .page 200
    { Object := "list"
      Data := xs.map (fun x => some { Object := "item", Attributes := some x })
      Meta := ⟨⟨xs.length, xs.length, 100, cur, tot⟩⟩ }

/-- A walk of two pages: items `1, 2` on page 1 of 2, item `3` on page 2 of 2. -/
def twoPages : List (Answer Nat) := [samplePage 1 2 [1, 2], samplePage 2 2 [3]]

/-- The items of the pages of `twoPages`. -/
def twoPagesItems (k : Nat) : List (Option Nat) :=
  if k = 0 then [some 1, some 2] else [some 3]

/-- The metadata of the pages of `twoPages`. -/
def twoPagesMeta (k : Nat) : Meta :=
  if k = 0 then ⟨⟨2, 2, 100, 1, 2⟩⟩ else ⟨⟨1, 1, 100, 2, 2⟩⟩

/-- The only page of an empty list: no items, `current_page = 1`, `total_pages = 0`. -/
def emptyList : List (Answer Nat) := [samplePage 1 0 []]

/-- A walk whose second fetch fails: page 1 of 3 with item `1`, then an error. -/
def failingSecond : List (Answer Nat) :=
  [samplePage 1 3 [1], .fails (.msg "connection reset")]

/-- A decoder that reports `io.EOF` on an empty body, as `encoding/json` does, and
on any other body succeeds and leaves the target as it was, as `encoding/json`
does on the body `{}`. It stands for the library on those two bodies only. -/
def eofOnEmpty (V : Type) : Decoder V :=
  fun body v => if body = [] then (v, some (.msg "EOF")) else (v, none)

/-- The bytes of the body `{}`. -/
def emptyObject : Bytes := [123, 125]

/-- An exchange in which the server answers every request with the same status
and body; the world counts the exchanges. -/
def fixedExchange (status : Int) (body : Bytes) : Exchange Unit Nat :=
  fun _ w _ => (w + 1, .inr ⟨status, body, false⟩)

/-- A request builder that never fails and leaves the world as it is. -/
def plainNewRequest (w : Nat) (method endpoint : String) (body : Option Bytes)
    (_ : Option PaginationOptions) : Outcome (Nat × Option HttpRequest × Option GoError) :=
  .returned (w, some (scriptedRequest method endpoint body), none)

/-- A client with the default HTTP client in place. -/
def sampleClient : Client Unit :=
  { baseURL := "https://fake-panel.com", apiKey := "ptla_x",
    httpClient := some ⟨none, none, none, 10000000000⟩ }

/-- The client `sampleClient` as a requester, against a server that answers every
request with the given status and body. -/
def sampleRequester (status : Int) (body : Bytes) : Requester Nat Nat :=
  Client.requester (fixedExchange status body) (eofOnEmpty (Option APIError))
    (eofOnEmpty (PaginatedResponse Nat)) (eofOnEmpty (ListItem Nat)) plainNewRequest
    sampleClient

/-- The bytes of the body `null`. -/
def nullBody : Bytes := [110, 117, 108, 108]

/-- A decoder for the variable `apiErr` that sets the pointer to nil on the body
`null` without an error, as `encoding/json` does for a pointer target, and is
`eofOnEmpty` on any other body. -/
def nullToNil : Decoder (Option APIError) :=
  fun body p => if body = nullBody then (none, none) else eofOnEmpty (Option APIError) body p

/-- A decoder that rejects every body and leaves the target as it was. -/
def rejectAll (V : Type) : Decoder V :=
  fun _ v => (v, some (.msg "invalid character"))

/-- The URL `https://fake-panel.com`. -/
def fakePanel : URL :=
  { Scheme := "https", Opaque := "", Host := "fake-panel.com", Path := "", RawQuery := "",
    Fragment := "" }

/-- The entry `key=value` of an encoded query, for a key with one value made of
unreserved characters. -/
def encodeKey (q : Values) (key : String) : List String :=
  match q key with
  | some (value :: _) => [key ++ "=" ++ value]
  | _ => []

/-- A stand-in for `net/url` and `net/http` on the inputs of the examples: the base
URL `https://fake-panel.com`, strings that start with `/` and carry no query string
(a path), and any other string (no URL). Queries hold the keys `include`, `page`
and `per_page`, which `Encode` writes in sorted order. -/
def sampleLib : NetLib where
  Parse := fun s =>
    if s = "https://fake-panel.com" then .inr fakePanel
    else if startsWith s "/" then .inr { fakePanel with Scheme := "", Host := "", Path := s }
    else .inl (.msg "missing protocol scheme")
  ParseRequestURI := fun s =>
    if s = "https://fake-panel.com" then .inr fakePanel
    else if startsWith s "/" then .inr { fakePanel with Scheme := "", Host := "", Path := s }
    else .inl (.msg "invalid URI for request")
  Query := fun _ => Values.empty
  Encode := fun q =>
    String.intercalate "&" (encodeKey q "include" ++ encodeKey q "page" ++ encodeKey q "per_page")
  ResolveReference := fun u rel => { u with Path := rel.Path, RawQuery := rel.RawQuery }
  URLString := fun u =>
    u.Scheme ++ "://" ++ u.Host ++ u.Path ++ (if u.RawQuery = "" then "" else "?" ++ u.RawQuery)
  RequestError := fun _ _ => none

/-- A client for `https://fake-panel.com` with the key `ptla_x`, as `NewClient`
builds it without options. -/
def panelClient : Client Unit := defaultClient Unit "https://fake-panel.com" "ptla_x"

/-- The metadata of the `k`-th page of a list that never ends: `current_page = k + 1`
of `total_pages = k + 2`. -/
def continuingMeta (k : Nat) : Meta := ⟨⟨0, 0, 100, (k : Int) + 1, (k : Int) + 2⟩⟩

/-- A server whose every page reports a further page: the `k`-th `Do` (`k` counted
from 0, the state) fills a paginated target with an empty page of metadata
`continuingMeta k`. With `limit = some n` only the first `n` calls of `Do` succeed and
the later ones fail; with `limit = none` every call succeeds. -/
def continuing (limit : Option Nat) : Requester Nat Nat where
  NewRequest := fun k method endpoint body _ =>
    .returned (k, some (scriptedRequest method endpoint body), none)
  DoPaginated := fun k _ v =>
    if limit.all (fun n => k < n) then
      .returned (k + 1, ⟨"list", [], continuingMeta k⟩, some ⟨200, [], false⟩, none)
    else .returned (k + 1, v, none, some (.msg "connection refused"))
  DoItem := fun k _ v => .returned (k + 1, v, none, some (.msg "connection refused"))
  DoNil := fun k _ => .returned (k + 1, none, some (.msg "connection refused"))

/-- A stand-in for `io.ReadAll` on the body of a response of `net/http`: the bytes
of an open body, and the error of reading a closed one. It stands for the library
on open bodies and on closed bodies that hold bytes. -/
def readAllBody (res : HttpResponse) : Bytes × Option GoError :=
  if res.Closed then ([], some (.msg "http: read on closed response body"))
  else (res.Body, none)

/-- The query `page=5&sort=name`. -/
def pageAndSort : Values := (Values.empty.Set "page" "5").Set "sort" "name"

/-- The stand-in `sampleLib`, which also reads the endpoint
`/api/users?page=5&sort=name` and writes the key `sort` after the other keys. -/
def queryLib : NetLib :=
  { sampleLib with
    Parse := fun s =>
      if s = "/api/users?page=5&sort=name" then
        .inr { fakePanel with Scheme := "", Host := "", Path := "/api/users",
                              RawQuery := "page=5&sort=name" }
      else sampleLib.Parse s
    Query := fun u => if u.RawQuery = "page=5&sort=name" then pageAndSort else Values.empty
    Encode := fun q =>
      String.intercalate "&" (encodeKey q "include" ++ encodeKey q "page" ++
        encodeKey q "per_page" ++ encodeKey q "sort") }

/-- A mock with the single response of the given status and body. -/
def sampleMock (status : Int) (body : Bytes) : MockRequester :=
  { Requests := [], Responses := [⟨status, body, none⟩], CurrentIndex := 0 }

/-- A schedule-detail response whose task list holds one task and a null entry. -/
def nullTaskSchedule : ScheduleDetailResponse :=
  ⟨"schedule", some ⟨1, "Test Schedule", false, 0, none⟩,
    some ⟨some ⟨"list",
      [some ⟨"schedule_task", some ⟨1, "command", "say hello"⟩⟩, none], Meta.zero⟩⟩⟩

/-- A schedule-detail response with one task in its relationships and no schedule
attributes. -/
def noAttributesSchedule : ScheduleDetailResponse :=
  ⟨"schedule", none,
    some ⟨some ⟨"list",
      [some ⟨"schedule_task", some ⟨1, "command", "say hello"⟩⟩], Meta.zero⟩⟩⟩

/-- A requester that builds every request and answers every `Do` with status 200
and the schedule-detail response `res`; its state counts the calls of `Do`. -/
def scheduleRequester (res : ScheduleDetailResponse) : RequesterAt Nat ScheduleDetailResponse where
  NewRequest := fun k method endpoint body _ =>
    .returned (k, some (scriptedRequest method endpoint body), none)
  Do := fun k _ _ => .returned (k + 1, res, some ⟨200, [], false⟩, none)

/-! ## Lemmas on `crud.List` -/

theorem listFill_spec {T : Type} (entries : List (ListItem T)) :
    ∀ (pre pad suf : List (Option T)), pad.length = entries.length →
      crud.listFill (entries.map some) pre.length (pre ++ pad ++ suf) =
        .returned (pre ++ entries.map (fun e => e.Attributes) ++ suf) := by
  induction entries with
  | nil =>
    intro pre pad suf h
    have : pad = [] := List.length_eq_zero.mp h
    subst this
    simp [crud.listFill]
  | cons e rest ih =>
    intro pre pad suf h
    cases pad with
    | nil => simp at h
    | cons p pad1 =>
      have hlen : pad1.length = rest.length := by simpa using h
      have hset : (pre ++ (p :: pad1) ++ suf).set pre.length e.Attributes =
          (pre ++ [e.Attributes]) ++ pad1 ++ suf := by
        simp [List.set_append]
      have := ih (pre ++ [e.Attributes]) pad1 suf hlen
      simp only [List.map_cons, crud.listFill, hset]
      simpa using this

theorem listFill_all {T : Type} (entries : List (ListItem T)) :
    crud.listFill (entries.map some) 0 (nils T (entries.map some).length) =
      .returned (entries.map (fun e => e.Attributes)) := by
  have := listFill_spec entries [] (nils T entries.length) [] (by simp [nils])
  simpa using this

theorem List_traced {σ T : Type} (c : Requester σ T) (s : σ) (log : List Call)
    (path : String) (opt : Option PaginationOptions) :
    crud.List c.traced (s, log) path opt =
      match crud.List c s path opt with
      | .panicked => .panicked
      | .returned (s1, r) => .returned ((s1, log ++ listCalls c s path opt), r) := by
  unfold crud.List listCalls Requester.traced
  simp only
  cases h1 : c.NewRequest s "GET" path none opt with
  | panicked => rfl
  | returned r1 =>
    obtain ⟨s1, req, err⟩ := r1
    cases err with
    | some e => rfl
    | none =>
      simp only
      cases h2 : c.DoPaginated s1 req (PaginatedResponse.zero T) with
      | panicked => rfl
      | returned r2 =>
        obtain ⟨s2, resp, res, err2⟩ := r2
        cases err2 with
        | some e => simp
        | none =>
          simp only
          cases h3 : crud.listFill resp.Data 0 (nils T resp.Data.length) with
          | panicked => rfl
          | returned out => simp

theorem listCalls_of_success {σ T : Type} (c : Requester σ T) (s s1 : σ) (path : String)
    (opt : Option PaginationOptions) (its : Slice (Option T)) (m : Option Meta)
    (h : crud.List c s path opt = .returned (s1, its, m, none)) :
    ∃ req, listCalls c s path opt =
      [.newRequest "GET" path none opt, .doCall req .paginated] := by
  unfold crud.List at h
  unfold listCalls
  cases h1 : c.NewRequest s "GET" path none opt with
  | panicked => simp [h1] at h
  | returned r1 =>
    obtain ⟨s0, req, err⟩ := r1
    cases err with
    | some e => simp [h1] at h
    | none => exact ⟨req, rfl⟩

theorem requestsOf_append (a b : List Call) :
    requestsOf (a ++ b) = requestsOf a ++ requestsOf b := by
  induction a with
  | nil => rfl
  | cons x rest ih => cases x <;> simp [requestsOf, ih]

theorem executionsOf_append (a b : List Call) :
    executionsOf (a ++ b) = executionsOf a ++ executionsOf b := by
  induction a with
  | nil => rfl
  | cons x rest ih => cases x <;> simp [executionsOf, ih]

theorem requestsOf_listCalls {σ T : Type} (c : Requester σ T) (s : σ) (path : String)
    (opt : Option PaginationOptions) :
    requestsOf (listCalls c s path opt) = [("GET", path, none, opt)] := by
  unfold listCalls
  split <;> rfl


/-! ## Lemmas on the walk -/

theorem loop_continue {σ T : Type} (c : Requester σ T) (path : String) (fuel : Nat)
    (s s1 : σ) (opts : PaginationOptions) (acc its : List (Option T)) (m : Meta)
    (h : crud.List c s path (some opts) = .returned (s1, some its, some m, none))
    (hm : ¬ m.Pagination.CurrentPage ≥ m.Pagination.TotalPages) :
    crud.listAllLoop c path (fuel + 1) s opts acc =
      crud.listAllLoop c path fuel s1 { opts with Page := opts.Page + 1 } (acc ++ its) := by
  simp [crud.listAllLoop, h, hm]

theorem loop_stop {σ T : Type} (c : Requester σ T) (path : String) (fuel : Nat)
    (s s1 : σ) (opts : PaginationOptions) (acc its : List (Option T)) (m : Meta)
    (h : crud.List c s path (some opts) = .returned (s1, some its, some m, none))
    (hm : m.Pagination.CurrentPage ≥ m.Pagination.TotalPages) :
    crud.listAllLoop c path (fuel + 1) s opts acc =
      some (.returned (s1, some (acc ++ its), none)) := by
  simp [crud.listAllLoop, h, hm]

theorem loop_fail {σ T : Type} (c : Requester σ T) (path : String) (fuel : Nat)
    (s s1 : σ) (opts : PaginationOptions) (acc : List (Option T))
    (its : Slice (Option T)) (m : Option Meta) (err : GoError)
    (h : crud.List c s path (some opts) = .returned (s1, its, m, some err)) :
    crud.listAllLoop c path (fuel + 1) s opts acc = some (.returned (s1, none, some err)) := by
  simp [crud.listAllLoop, h]

theorem pageOptions_succ (perPage : Int) (k : Nat) :
    { pageOptions perPage k with Page := (pageOptions perPage k).Page + 1 } =
      pageOptions perPage (k + 1) := by
  simp [pageOptions]

theorem pagesConcat_succ {T : Type} (items : Nat → List (Option T)) (n : Nat) :
    pagesConcat items (n + 1) = pagesConcat items n ++ items n := by
  simp [pagesConcat, List.range_succ]

/-- Skipping over `d` pages after which the walk continues. -/
theorem loop_skip {σ T : Type} (c : Requester σ T) (path : String) (perPage : Int)
    (st : Nat → σ) (items : Nat → List (Option T)) (meta : Nat → Meta) (n : Nat)
    (hs : ServesPages c path perPage st items meta n)
    (hc : ∀ k, k < n → Continues meta k) (fuel : Nat) :
    ∀ d j, j + d = n →
      crud.listAllLoop c path (fuel + d) (st j) (pageOptions perPage j) (pagesConcat items j) =
        crud.listAllLoop c path fuel (st n) (pageOptions perPage n) (pagesConcat items n) := by
  intro d
  induction d with
  | zero => intro j hj; simp at hj; subst hj; rfl
  | succ d ih =>
    intro j hj
    have hlt : j < n := by omega
    have h1 := loop_continue c path (fuel + d) (st j) (st (j + 1)) (pageOptions perPage j)
      (pagesConcat items j) (items j) (meta j) (hs j hlt) (hc j hlt)
    rw [show fuel + (d + 1) = fuel + d + 1 from rfl, h1, pageOptions_succ, ← pagesConcat_succ]
    exact ih (j + 1) (by omega)



theorem servesPages_traced {σ T : Type} (c : Requester σ T) (path : String) (perPage : Int)
    (st : Nat → σ) (items : Nat → List (Option T)) (meta : Nat → Meta) (n : Nat)
    (hs : ServesPages c path perPage st items meta n) :
    ServesPages c.traced path perPage (fun k => (st k, walkLog c path perPage st k))
      items meta n := by
  intro k hk
  rw [List_traced, hs k hk]
  rfl

theorem requestsOf_walkLog {σ T : Type} (c : Requester σ T) (path : String) (perPage : Int)
    (st : Nat → σ) (n : Nat) :
    requestsOf (walkLog c path perPage st n) =
      (List.range n).map (fun k => ("GET", path, none, some (pageOptions perPage k))) := by
  induction n with
  | zero => rfl
  | succ n ih =>
    simp [walkLog, requestsOf_append, requestsOf_listCalls, ih, List.range_succ]

theorem executionsOf_walkLog {σ T : Type} (c : Requester σ T) (path : String) (perPage : Int)
    (st : Nat → σ) (items : Nat → List (Option T)) (meta : Nat → Meta) (n : Nat)
    (hs : ServesPages c path perPage st items meta n) :
    ∀ k, k ≤ n → (executionsOf (walkLog c path perPage st k)).length = k := by
  intro k
  induction k with
  | zero => intro _; rfl
  | succ k ih =>
    intro hk
    obtain ⟨req, hreq⟩ := listCalls_of_success c (st k) (st (k + 1)) path
      (some (pageOptions perPage k)) (some (items k)) (some (meta k)) (hs k (by omega))
    simp [walkLog, executionsOf_append, hreq, executionsOf, ih (by omega)]

theorem ListAll_start {σ T : Type} (c : Requester σ T) (s : σ) (path : String)
    (perPage : Int) (fuel : Nat) (items : Nat → List (Option T)) :
    crud.ListAll c s path perPage fuel =
      crud.listAllLoop c path fuel s
        (pageOptions (if perPage ≤ 0 then 100 else perPage) 0) (pagesConcat items 0) := by
  simp [crud.ListAll, pageOptions, pagesConcat]

/-- A walk over `m + 1` served pages that stops at the last one. -/
theorem ListAll_walk_stop {σ T : Type} (c : Requester σ T) (path : String) (perPage : Int)
    (st : Nat → σ) (items : Nat → List (Option T)) (meta : Nat → Meta) (m : Nat)
    (hs : ServesPages c path (if perPage ≤ 0 then 100 else perPage) st items meta (m + 1))
    (hc : ∀ k, k < m → Continues meta k) (hstop : ¬ Continues meta m)
    (fuel : Nat) (hf : m + 1 ≤ fuel) :
    crud.ListAll c (st 0) path perPage fuel =
      some (.returned (st (m + 1), some (pagesConcat items (m + 1)), none)) := by
  obtain ⟨f, rfl⟩ : ∃ f, fuel = (f + 1) + m := ⟨fuel - (m + 1), by omega⟩
  rw [ListAll_start c (st 0) path perPage _ items]
  rw [loop_skip c path _ st items meta m (fun k hk => hs k (by omega)) hc (f + 1) m 0 (by simp)]
  rw [loop_stop c path f (st m) (st (m + 1)) _ _ (items m) (meta m) (hs m (by omega))
    (by simpa [Continues] using hstop)]
  rw [pagesConcat_succ]

/-- A walk over `m` served pages whose next fetch fails. -/
theorem ListAll_walk_fail {σ T : Type} (c : Requester σ T) (path : String) (perPage : Int)
    (st : Nat → σ) (items : Nat → List (Option T)) (meta : Nat → Meta) (m : Nat)
    (hs : ServesPages c path (if perPage ≤ 0 then 100 else perPage) st items meta m)
    (hc : ∀ k, k < m → Continues meta k)
    (s1 : σ) (its : Slice (Option T)) (mt : Option Meta) (err : GoError)
    (hfail : crud.List c (st m) path
      (some (pageOptions (if perPage ≤ 0 then 100 else perPage) m)) =
        .returned (s1, its, mt, some err))
    (fuel : Nat) (hf : m + 1 ≤ fuel) :
    crud.ListAll c (st 0) path perPage fuel = some (.returned (s1, none, some err)) := by
  obtain ⟨f, rfl⟩ : ∃ f, fuel = (f + 1) + m := ⟨fuel - (m + 1), by omega⟩
  rw [ListAll_start c (st 0) path perPage _ items]
  rw [loop_skip c path _ st items meta m hs hc (f + 1) m 0 (by simp)]
  exact loop_fail c path f (st m) s1 _ _ its mt err hfail


/-- The calls of a walk that returned: every `NewRequest` in them is a `GET` on
`path` with no body and the options of the walk, whatever the page. -/
theorem loop_traced_requests {σ T : Type} (c : Requester σ T) (path : String) :
    ∀ (fuel : Nat) (s : σ) (log : List Call) (opts : PaginationOptions)
      (acc : List (Option T)) (s1 : σ) (log1 : List Call)
      (r : Slice (Option T) × Option GoError),
      crud.listAllLoop c.traced path fuel (s, log) opts acc = some (.returned ((s1, log1), r)) →
      ∃ extra, log1 = log ++ extra ∧
        ∀ q, q ∈ requestsOf extra →
          ∃ page, q = ("GET", path, none, some { opts with Page := page }) := by
  intro fuel
  induction fuel with
  | zero => intro s log opts acc s1 log1 r h; simp [crud.listAllLoop] at h
  | succ fuel ih =>
    intro s log opts acc s1 log1 r h
    have hq : ∀ q, q ∈ requestsOf (listCalls c s path (some opts)) →
        ∃ page, q = ("GET", path, none, some { opts with Page := page }) := by
      intro q hq
      rw [requestsOf_listCalls] at hq
      exact ⟨opts.Page, by simpa using hq⟩
    unfold crud.listAllLoop at h
    rw [List_traced] at h
    cases hl : crud.List c s path (some opts) with
    | panicked => simp [hl] at h
    | returned x =>
      obtain ⟨s2, its, mt, err⟩ := x
      simp only [hl] at h
      cases err with
      | some e =>
        simp only [Option.some.injEq, Outcome.returned.injEq, Prod.mk.injEq] at h
        exact ⟨_, h.1.2.symm, hq⟩
      | none =>
        cases mt with
        | none => simp at h
        | some m =>
          simp only at h
          split at h
          · simp only [Option.some.injEq, Outcome.returned.injEq, Prod.mk.injEq] at h
            exact ⟨_, h.1.2.symm, hq⟩
          · obtain ⟨extra, he, hx⟩ := ih _ _ _ _ _ _ _ h
            refine ⟨listCalls c s path (some opts) ++ extra, by simp [he], ?_⟩
            intro q hmem
            rw [requestsOf_append, List.mem_append] at hmem
            rcases hmem with hmem | hmem
            · exact hq q hmem
            · obtain ⟨page, hp⟩ := hx q hmem
              exact ⟨page, hp⟩


/-! ## Claims on `crud.List` and `crud.Get` -/

/-- C6. When the request is built and `Do` decodes a paginated envelope whose
data holds the entries `a0..aN-1`, `crud.List` returns a slice of length `N` whose
`i`-th element is the attributes of the `i`-th entry, in the same order, together
with the decoded metadata and no error. -/
theorem crud_List_preserves_order {σ T : Type} (c : Requester σ T) (s s1 s2 : σ)
    (path : String) (opt : Option PaginationOptions) (req : Option HttpRequest)
    (resp : PaginatedResponse T) (res : Option HttpResponse) (entries : List (ListItem T))
    (hreq : c.NewRequest s "GET" path none opt = .returned (s1, req, none))
    (hdo : c.DoPaginated s1 req (PaginatedResponse.zero T) = .returned (s2, resp, res, none))
    (hdata : resp.Data = entries.map some) :
    ∃ out : List (Option T),
      crud.List c s path opt = .returned (s2, some out, some resp.Meta, none) ∧
      out = entries.map (fun e => e.Attributes) ∧
      out.length = entries.length ∧
      ∀ (i : Nat) (h : i < entries.length),
        out.get? i = some (entries.get ⟨i, h⟩).Attributes := by
  refine ⟨entries.map (fun e => e.Attributes), ?_, rfl, by simp, ?_⟩
  · unfold crud.List
    simp only [hreq, hdo, hdata, listFill_all]
  · intro i h
    simp [List.getElem?_map, List.getElem?_eq_getElem h]

/-- Witness of C6: a page of three entries read through a scripted requester. -/
theorem crud_List_preserves_order_witness :
    ∃ out : List (Option Nat),
      crud.List (scripted [samplePage 1 1 [7, 5, 9]]) 0 "/p" none =
        .returned (1, some out, some ⟨⟨3, 3, 100, 1, 1⟩⟩, none) ∧
      out = [some 7, some 5, some 9] := by
  obtain ⟨out, h1, h2, _, _⟩ := crud_List_preserves_order
    (scripted [samplePage 1 1 [7, 5, 9]]) 0 0 1 "/p" none
    (some (scriptedRequest "GET" "/p" none))
    ⟨"list", [some ⟨"item", some 7⟩, some ⟨"item", some 5⟩, some ⟨"item", some 9⟩],
      ⟨⟨3, 3, 100, 1, 1⟩⟩⟩
    (some ⟨200, [], false⟩) [⟨"item", some 7⟩, ⟨"item", some 5⟩, ⟨"item", some 9⟩] rfl rfl rfl
  exact ⟨out, h1, h2⟩

/-- C7. Whenever `crud.List` returns no error, the request was built, `Do`
succeeded, and the returned meta is non-nil and is the metadata `Do` decoded into
the response; whenever it returns an error, the items and the meta are both nil. -/
theorem crud_List_meta {σ T : Type} (c : Requester σ T) (s s2 : σ) (path : String)
    (opt : Option PaginationOptions) (items : Slice (Option T)) (meta : Option Meta)
    (err : Option GoError)
    (h : crud.List c s path opt = .returned (s2, items, meta, err)) :
    (err = none →
      ∃ s1 req resp res,
        c.NewRequest s "GET" path none opt = .returned (s1, req, none) ∧
        c.DoPaginated s1 req (PaginatedResponse.zero T) = .returned (s2, resp, res, none) ∧
        meta = some resp.Meta ∧ meta ≠ none) ∧
    (err ≠ none → items = none ∧ meta = none) := by
  unfold crud.List at h
  cases h1 : c.NewRequest s "GET" path none opt with
  | panicked => simp [h1] at h
  | returned r1 =>
    obtain ⟨s1, req, e1⟩ := r1
    cases e1 with
    | some e =>
      simp only [h1, Outcome.returned.injEq, Prod.mk.injEq] at h
      obtain ⟨_, hi, hm, he⟩ := h
      subst hi hm he
      simp
    | none =>
      simp only [h1] at h
      cases h2 : c.DoPaginated s1 req (PaginatedResponse.zero T) with
      | panicked => simp [h2] at h
      | returned r2 =>
        obtain ⟨s3, resp, res, e2⟩ := r2
        cases e2 with
        | some e =>
          simp only [h2, Outcome.returned.injEq, Prod.mk.injEq] at h
          obtain ⟨_, hi, hm, he⟩ := h
          subst hi hm he
          simp
        | none =>
          simp only [h2] at h
          cases h3 : crud.listFill resp.Data 0 (nils T resp.Data.length) with
          | panicked => simp [h3] at h
          | returned out =>
            simp only [h3, Outcome.returned.injEq, Prod.mk.injEq] at h
            obtain ⟨hs, hi, hm, he⟩ := h
            subst hs hi hm he
            refine ⟨fun _ => ⟨s1, req, resp, res, rfl, h2, rfl, by simp⟩, fun hne => ?_⟩
            exact absurd rfl hne

/-- Witness of C7: a successful page, whose metadata comes back. -/
theorem crud_List_meta_witness :
    (none = (none : Option GoError) →
      ∃ s1 req resp res,
        (scripted [samplePage 1 2 [4]]).NewRequest 0 "GET" "/p" none none =
          .returned (s1, req, none) ∧
        (scripted [samplePage 1 2 [4]]).DoPaginated s1 req (PaginatedResponse.zero Nat) =
          .returned (1, resp, res, none) ∧
        some (⟨⟨1, 1, 100, 1, 2⟩⟩ : Meta) = some resp.Meta ∧
        some (⟨⟨1, 1, 100, 1, 2⟩⟩ : Meta) ≠ none) ∧
    ((none : Option GoError) ≠ none →
      some [some 4] = (none : Slice (Option Nat)) ∧
      some (⟨⟨1, 1, 100, 1, 2⟩⟩ : Meta) = none) :=
  crud_List_meta (scripted [samplePage 1 2 [4]]) 0 1 "/p" none (some [some 4])
    (some ⟨⟨1, 1, 100, 1, 2⟩⟩) none rfl

/-- C8. For every item type `T`: when the request is built and `Do` succeeds,
leaving the single-item envelope `env` in the decode target, `crud.Get` returns
the envelope's attributes and a nil error. -/
theorem crud_Get_returns_attributes {σ T : Type} (c : Requester σ T) (s s1 s2 : σ)
    (path : String) (id : Int) (req : Option HttpRequest) (env : ListItem T)
    (res : Option HttpResponse)
    (hreq : c.NewRequest s "GET" (crud.itemEndpoint path id) none none =
      .returned (s1, req, none))
    (hdo : c.DoItem s1 req (ListItem.zero T) = .returned (s2, env, res, none)) :
    crud.Get c s path id = .returned (s2, env.Attributes, none) := by
  unfold crud.Get
  simp only [hreq, hdo]

/-- Witness of C8: an envelope with attributes `42` read through a scripted requester. -/
theorem crud_Get_returns_attributes_witness :
    crud.Get (scripted [Answer.single 200 ⟨"user", some 42⟩]) 0 "/api/users" 7 =
      .returned (1, some 42, none) :=
  crud_Get_returns_attributes (scripted [Answer.single 200 ⟨"user", some 42⟩]) 0 0 1
    "/api/users" 7 (some (scriptedRequest "GET" "/api/users/7" none)) ⟨"user", some 42⟩
    (some ⟨200, [], false⟩) rfl rfl

/-! ## Claims on `crud.ListAll` -/

/-- C1, amended. For every `N`: when each page fetch succeeds and the `k`-th
response reports `current_page = k` and `total_pages = N`, `crud.ListAll` returns
after exactly `max N 1` calls to `List` (each one `NewRequest` and one `Do`):
`N` calls when `N ≥ 1`, and one call when `N = 0`. -/
theorem crud_ListAll_calls_total_pages {σ T : Type} (c : Requester σ T) (path : String)
    (perPage : Int) (N : Nat) (st : Nat → σ) (items : Nat → List (Option T))
    (meta : Nat → Meta)
    (hs : ServesPages c path (if perPage ≤ 0 then 100 else perPage) st items meta (max N 1))
    (hm : ∀ k, k < max N 1 →
      (meta k).Pagination.CurrentPage = (k : Int) + 1 ∧
      (meta k).Pagination.TotalPages = (N : Int))
    (fuel : Nat) (hf : max N 1 ≤ fuel) :
    ∃ log : List Call,
      crud.ListAll c.traced (st 0, []) path perPage fuel =
        some (.returned ((st (max N 1), log), some (pagesConcat items (max N 1)), none)) ∧
      (requestsOf log).length = max N 1 ∧
      (executionsOf log).length = max N 1 := by
  obtain ⟨m, hmN⟩ : ∃ m, max N 1 = m + 1 := ⟨max N 1 - 1, by omega⟩
  rw [hmN] at hs hm hf ⊢
  have hs1 := servesPages_traced c path _ st items meta (m + 1) hs
  have hc : ∀ k, k < m → Continues meta k := by
    intro k hk
    obtain ⟨h1, h2⟩ := hm k (by omega)
    simp only [Continues, h1, h2]
    omega
  have hstop : ¬ Continues meta m := by
    obtain ⟨h1, h2⟩ := hm m (by omega)
    simp only [Continues, h1, h2]
    omega
  refine ⟨walkLog c path (if perPage ≤ 0 then 100 else perPage) st (m + 1), ?_, ?_, ?_⟩
  · exact ListAll_walk_stop c.traced path perPage _ items meta m hs1 hc hstop fuel hf
  · simp [requestsOf_walkLog]
  · exact executionsOf_walkLog c path _ st items meta (m + 1) hs (m + 1) (le_refl _)

/-- Witness of C1: the two-page walk makes two calls. -/
theorem crud_ListAll_calls_total_pages_witness :
    ∃ log : List Call,
      crud.ListAll (scripted twoPages).traced (0, []) "/p" 0 2 =
        some (.returned ((2, log), some [some 1, some 2, some 3], none)) ∧
      (requestsOf log).length = 2 ∧ (executionsOf log).length = 2 := by
  have hs : ServesPages (scripted twoPages) "/p" (if (0 : Int) ≤ 0 then 100 else 0)
      (fun k => k) twoPagesItems twoPagesMeta (max 2 1) := by
    intro k hk
    have hk2 : k < 2 := by simpa using hk
    interval_cases k <;> rfl
  have hm : ∀ k, k < max 2 1 →
      (twoPagesMeta k).Pagination.CurrentPage = (k : Int) + 1 ∧
      (twoPagesMeta k).Pagination.TotalPages = ((2 : Nat) : Int) := by
    intro k hk
    have hk2 : k < 2 := by simpa using hk
    interval_cases k <;> exact ⟨rfl, rfl⟩
  exact crud_ListAll_calls_total_pages (scripted twoPages) "/p" 0 2 (fun k => k)
    twoPagesItems twoPagesMeta hs hm 2 (by decide)

/-- Counterexample to C1 as stated, at `N = 0`: when the first response reports
`current_page = 1` and `total_pages = 0`, no run of `crud.ListAll` returns after
0 calls to `List`. -/
theorem crud_ListAll_zero_total_pages_not_zero_calls :
    ¬ ∃ (fuel : Nat) (s : Nat) (log : List Call) (r : Slice (Option Nat) × Option GoError),
      crud.ListAll (scripted emptyList).traced (0, []) "/p" 100 fuel =
        some (.returned ((s, log), r)) ∧
      (requestsOf log).length = 0 := by
  rintro ⟨fuel, s, log, r, h, hl⟩
  cases fuel with
  | zero => simp [crud.ListAll, crud.listAllLoop] at h
  | succ f =>
    have hrun : crud.ListAll (scripted emptyList).traced (0, []) "/p" 100 (f + 1) =
        some (.returned ((1, [.newRequest "GET" "/p" none (some ⟨1, 100, []⟩),
          .doCall (some (scriptedRequest "GET" "/p" none)) .paginated]), some [], none)) := rfl
    rw [hrun] at h
    simp only [Option.some.injEq, Outcome.returned.injEq, Prod.mk.injEq] at h
    obtain ⟨⟨_, hlog⟩, _⟩ := h
    subst hlog
    simp [requestsOf] at hl


/-- C2. For every run of successful page responses on which the walk stops at
the `(m + 1)`-th one, `crud.ListAll` returns; its `k`-th `List` call is a `GET` on
`path` that requests `Page = k` with the walk's `PerPage`; and the returned slice
is the concatenation of the pages' items in the order received, so its length is
the sum of the pages' item counts. -/
theorem crud_ListAll_pages_in_order {σ T : Type} (c : Requester σ T) (path : String)
    (perPage : Int) (st : Nat → σ) (items : Nat → List (Option T)) (meta : Nat → Meta)
    (m : Nat)
    (hs : ServesPages c path (if perPage ≤ 0 then 100 else perPage) st items meta (m + 1))
    (hc : ∀ k, k < m → Continues meta k) (hstop : ¬ Continues meta m)
    (fuel : Nat) (hf : m + 1 ≤ fuel) :
    ∃ (log : List Call) (all : List (Option T)),
      crud.ListAll c.traced (st 0, []) path perPage fuel =
        some (.returned ((st (m + 1), log), some all, none)) ∧
      requestsOf log = (List.range (m + 1)).map (fun k =>
        ("GET", path, none,
          some { Page := (k : Int) + 1,
                 PerPage := if perPage ≤ 0 then 100 else perPage,
                 Include := [] })) ∧
      all = ((List.range (m + 1)).map items).flatten ∧
      all.length = ((List.range (m + 1)).map (fun k => (items k).length)).sum := by
  have hs1 := servesPages_traced c path _ st items meta (m + 1) hs
  refine ⟨walkLog c path (if perPage ≤ 0 then 100 else perPage) st (m + 1),
    pagesConcat items (m + 1), ?_, ?_, rfl, ?_⟩
  · exact ListAll_walk_stop c.traced path perPage _ items meta m hs1 hc hstop fuel hf
  · rw [requestsOf_walkLog]
    rfl
  · simp [pagesConcat, List.length_flatten, Function.comp_def]

/-- Witness of C2: the two-page walk returns the three items in order. -/
theorem crud_ListAll_pages_in_order_witness :
    ∃ (log : List Call) (all : List (Option Nat)),
      crud.ListAll (scripted twoPages).traced (0, []) "/p" 50 2 =
        some (.returned ((2, log), some all, none)) ∧
      requestsOf log = [("GET", "/p", none, some ⟨1, 50, []⟩),
        ("GET", "/p", none, some ⟨2, 50, []⟩)] ∧
      all = [some 1, some 2, some 3] ∧ all.length = 3 := by
  have hs : ServesPages (scripted twoPages) "/p" (if (50 : Int) ≤ 0 then 100 else 50)
      (fun k => k) twoPagesItems twoPagesMeta (1 + 1) := by
    intro k hk
    interval_cases k <;> rfl
  have hc : ∀ k, k < 1 → Continues twoPagesMeta k := by
    intro k hk
    interval_cases k
    simp [Continues, twoPagesMeta]
  have hstop : ¬ Continues twoPagesMeta 1 := by
    simp [Continues, twoPagesMeta]
  exact crud_ListAll_pages_in_order (scripted twoPages) "/p" 50 (fun k => k)
    twoPagesItems twoPagesMeta 1 hs hc hstop 2 (by decide)

/-- C3. If the first page succeeds with no items and pagination
`{current_page: 1, total_pages: 0}`, `crud.ListAll` ends after exactly one `List`
call (one `NewRequest`, one `Do`) and returns an empty, non-nil slice and no error,
with any fuel of at least one iteration. -/
theorem crud_ListAll_empty_first_page {σ T : Type} (c : Requester σ T) (s s1 : σ)
    (path : String) (perPage : Int) (m : Meta)
    (hpage : crud.List c s path
      (some { Page := 1, PerPage := if perPage ≤ 0 then 100 else perPage, Include := [] }) =
        .returned (s1, some [], some m, none))
    (hcur : m.Pagination.CurrentPage = 1) (htot : m.Pagination.TotalPages = 0)
    (fuel : Nat) (hf : 1 ≤ fuel) :
    ∃ log : List Call,
      crud.ListAll c.traced (s, []) path perPage fuel =
        some (.returned ((s1, log), some [], none)) ∧
      (requestsOf log).length = 1 ∧ (executionsOf log).length = 1 := by
  have hs : ServesPages c path (if perPage ≤ 0 then 100 else perPage)
      (fun k => if k = 0 then s else s1) (fun _ => []) (fun _ => m) (0 + 1) := by
    intro k hk
    interval_cases k
    simpa [pageOptions] using hpage
  have hs1 := servesPages_traced c path _ _ _ _ (0 + 1) hs
  have hstop : ¬ Continues (fun _ : Nat => m) 0 := by
    simp [Continues, hcur, htot]
  have hrun := ListAll_walk_stop c.traced path perPage _ (fun _ => []) (fun _ => m) 0 hs1
    (by intro k hk; omega) hstop fuel hf
  refine ⟨_, hrun, ?_, ?_⟩
  · simp [requestsOf_walkLog]
  · exact executionsOf_walkLog c path _ _ _ _ (0 + 1) hs (0 + 1) (le_refl _)

/-- Witness of C3: the empty list is read in one call. -/
theorem crud_ListAll_empty_first_page_witness :
    ∃ log : List Call,
      crud.ListAll (scripted emptyList).traced (0, []) "/p" 100 1 =
        some (.returned ((1, log), some [], none)) ∧
      (requestsOf log).length = 1 ∧ (executionsOf log).length = 1 :=
  crud_ListAll_empty_first_page (scripted emptyList) 0 1 "/p" 100 ⟨⟨0, 0, 100, 1, 0⟩⟩
    rfl rfl rfl 1 (le_refl _)


/-- C4. If the `List` call for page `m + 1` fails with `err` after `m` pages
succeeded (`m = 0` included), `crud.ListAll` returns the nil slice together with
that same error, none of the items already accumulated, and the calls it made are
the `m + 1` page requests and no more. -/
theorem crud_ListAll_error_aborts {σ T : Type} (c : Requester σ T) (path : String)
    (perPage : Int) (st : Nat → σ) (items : Nat → List (Option T)) (meta : Nat → Meta)
    (m : Nat)
    (hs : ServesPages c path (if perPage ≤ 0 then 100 else perPage) st items meta m)
    (hc : ∀ k, k < m → Continues meta k)
    (s1 : σ) (its : Slice (Option T)) (mt : Option Meta) (err : GoError)
    (hfail : crud.List c (st m) path
      (some { Page := (m : Int) + 1,
              PerPage := if perPage ≤ 0 then 100 else perPage,
              Include := [] }) = .returned (s1, its, mt, some err))
    (fuel : Nat) (hf : m + 1 ≤ fuel) :
    ∃ log : List Call,
      crud.ListAll c.traced (st 0, []) path perPage fuel =
        some (.returned ((s1, log), none, some err)) ∧
      requestsOf log = (List.range (m + 1)).map (fun k =>
        ("GET", path, none,
          some { Page := (k : Int) + 1,
                 PerPage := if perPage ≤ 0 then 100 else perPage,
                 Include := [] })) := by
  have hs1 := servesPages_traced c path _ st items meta m hs
  have hfail1 : crud.List c.traced
      (st m, walkLog c path (if perPage ≤ 0 then 100 else perPage) st m) path
      (some (pageOptions (if perPage ≤ 0 then 100 else perPage) m)) =
        .returned ((s1, walkLog c path (if perPage ≤ 0 then 100 else perPage) st (m + 1)),
          its, mt, some err) := by
    rw [List_traced]
    simp only [pageOptions, hfail]
    rfl
  refine ⟨walkLog c path (if perPage ≤ 0 then 100 else perPage) st (m + 1), ?_, ?_⟩
  · exact ListAll_walk_fail c.traced path perPage _ items meta m hs1 hc _ its mt err
      hfail1 fuel hf
  · rw [requestsOf_walkLog]
    rfl

/-- Witness of C4: the second fetch fails and the item of page 1 is not returned. -/
theorem crud_ListAll_error_aborts_witness :
    ∃ log : List Call,
      crud.ListAll (scripted failingSecond).traced (0, []) "/p" 0 5 =
        some (.returned ((2, log), none, some (.msg "connection reset"))) ∧
      requestsOf log = [("GET", "/p", none, some ⟨1, 100, []⟩),
        ("GET", "/p", none, some ⟨2, 100, []⟩)] := by
  have hs : ServesPages (scripted failingSecond) "/p" (if (0 : Int) ≤ 0 then 100 else 0)
      (fun k => k) (fun _ => [some 1]) (fun _ => ⟨⟨1, 1, 100, 1, 3⟩⟩) 1 := by
    intro k hk
    interval_cases k
    rfl
  have hc : ∀ k, k < 1 → Continues (fun _ : Nat => (⟨⟨1, 1, 100, 1, 3⟩⟩ : Meta)) k := by
    intro k _
    simp [Continues]
  exact crud_ListAll_error_aborts (scripted failingSecond) "/p" 0 (fun k => k)
    (fun _ => [some 1]) (fun _ => ⟨⟨1, 1, 100, 1, 3⟩⟩) 1 hs hc 2 none none
    (.msg "connection reset") rfl 5 (by decide)

/-- C5. For every `perPage ≤ 0`, `crud.ListAll` runs exactly as with `perPage = 100`,
and every `List` call of a walk that returned carries `PerPage = 100`; for every
`perPage > 0` every such call carries `PerPage = perPage`. Each call is a `GET` on
`path` with no body and no includes. -/
theorem crud_ListAll_perPage_default {σ T : Type} (c : Requester σ T) (s : σ)
    (path : String) (perPage : Int) (fuel : Nat) :
    (perPage ≤ 0 → crud.ListAll c s path perPage fuel = crud.ListAll c s path 100 fuel) ∧
    ∀ (s1 : σ) (log : List Call) (r : Slice (Option T) × Option GoError),
      crud.ListAll c.traced (s, []) path perPage fuel = some (.returned ((s1, log), r)) →
      (perPage ≤ 0 → ∀ q, q ∈ requestsOf log →
        ∃ page, q = ("GET", path, none,
          some { Page := page, PerPage := 100, Include := [] })) ∧
      (0 < perPage → ∀ q, q ∈ requestsOf log →
        ∃ page, q = ("GET", path, none,
          some { Page := page, PerPage := perPage, Include := [] })) := by
  refine ⟨fun h => by simp [crud.ListAll, h], ?_⟩
  intro s1 log r h
  unfold crud.ListAll at h
  obtain ⟨extra, he, hq⟩ := loop_traced_requests c path fuel s [] _ [] s1 log r h
  have hlog : log = extra := by simpa using he
  subst hlog
  constructor
  · intro hp q hmem
    obtain ⟨page, hpage⟩ := hq q hmem
    exact ⟨page, by simpa [hp] using hpage⟩
  · intro hp q hmem
    obtain ⟨page, hpage⟩ := hq q hmem
    exact ⟨page, by simpa [not_le.mpr hp] using hpage⟩

/-- Witness of C5: with `perPage = 0` both calls of the two-page walk carry
`PerPage = 100`. -/
theorem crud_ListAll_perPage_default_witness :
    crud.ListAll (scripted twoPages) 0 "/p" 0 2 =
        crud.ListAll (scripted twoPages) 0 "/p" 100 2 ∧
    ∀ q, q ∈ [("GET", "/p", (none : Option Bytes), some (⟨1, 100, []⟩ : PaginationOptions)),
        ("GET", "/p", none, some ⟨2, 100, []⟩)] →
      ∃ page, q = ("GET", "/p", none, some { Page := page, PerPage := 100, Include := [] }) :=
  ⟨(crud_ListAll_perPage_default (scripted twoPages) 0 "/p" 0 2).1 (by decide),
    ((crud_ListAll_perPage_default (scripted twoPages) 0 "/p" 0 2).2 2
      [.newRequest "GET" "/p" none (some ⟨1, 100, []⟩),
       .doCall (some (scriptedRequest "GET" "/p" none)) .paginated,
       .newRequest "GET" "/p" none (some ⟨2, 100, []⟩),
       .doCall (some (scriptedRequest "GET" "/p" none)) .paginated]
      (some [some 1, some 2, some 3], none) rfl).1 (by decide)⟩


/-! ## Claims on `crud.Get` and `crud.Delete` -/

/-- C9. For every path and every integer id (zero and negative included), when the
requester builds the requests: `crud.Get` makes exactly one `NewRequest`, with method
`GET`, endpoint `path + "/" + decimal id`, no body and no pagination options, and
exactly one `Do`, on that request; `crud.Delete` makes exactly one `NewRequest`, with
method `DELETE` at the same endpoint, and exactly one `Do`, with a nil decode target,
whose error it returns. -/
theorem crud_Get_Delete_one_request {σ T : Type} (c : Requester σ T) (s : σ)
    (path : String) (id : Int)
    (s1 s2 : σ) (req : Option HttpRequest) (env : ListItem T) (res : Option HttpResponse)
    (err : Option GoError)
    (t1 t2 : σ) (dreq : Option HttpRequest) (dres : Option HttpResponse)
    (derr : Option GoError)
    (hget : c.NewRequest s "GET" (path ++ "/" ++ toString id) none none =
      .returned (s1, req, none))
    (hgetDo : c.DoItem s1 req (ListItem.zero T) = .returned (s2, env, res, err))
    (hdel : c.NewRequest s "DELETE" (path ++ "/" ++ toString id) none none =
      .returned (t1, dreq, none))
    (hdelDo : c.DoNil t1 dreq = .returned (t2, dres, derr)) :
    (∃ item, crud.Get c.traced (s, []) path id =
      .returned ((s2, [.newRequest "GET" (path ++ "/" ++ toString id) none none,
        .doCall req .item]), item, err)) ∧
    crud.Delete c.traced (s, []) path id =
      .returned ((t2, [.newRequest "DELETE" (path ++ "/" ++ toString id) none none,
        .doCall dreq .nilTarget]), derr) := by
  constructor
  · cases err with
    | none =>
      exact ⟨env.Attributes, by
        simp [crud.Get, crud.itemEndpoint, Requester.traced, hget, hgetDo]⟩
    | some e =>
      exact ⟨none, by simp [crud.Get, crud.itemEndpoint, Requester.traced, hget, hgetDo]⟩
  · simp [crud.Delete, crud.itemEndpoint, Requester.traced, hdel, hdelDo]

/-- Witness of C9: `Get` and `Delete` of the item with id `-3`. -/
theorem crud_Get_Delete_one_request_witness :
    (∃ item, crud.Get (scripted [Answer.single 200 ⟨"user", some 42⟩]).traced (0, [])
        "/api/users" (-3) =
      .returned ((1, [.newRequest "GET" "/api/users/-3" none none,
        .doCall (some (scriptedRequest "GET" "/api/users/-3" none)) .item]),
        item, none)) ∧
    crud.Delete (scripted [Answer.single 200 ⟨"user", some 42⟩]).traced (0, [])
        "/api/users" (-3) =
      .returned ((1, [.newRequest "DELETE" "/api/users/-3" none none,
        .doCall (some (scriptedRequest "DELETE" "/api/users/-3" none)) .nilTarget]), none) :=
  crud_Get_Delete_one_request (scripted [Answer.single 200 ⟨"user", some 42⟩]) 0
    "/api/users" (-3) 0 1 (some (scriptedRequest "GET" "/api/users/-3" none))
    ⟨"user", some 42⟩ (some ⟨200, [], false⟩) none
    0 1 (some (scriptedRequest "DELETE" "/api/users/-3" none)) (some ⟨200, [], false⟩) none
    rfl rfl rfl rfl

/-- C10, amended. When the server answers a `crud.Delete` made through `Client.Do`
with a status outside `[200,300)`: if the body decodes into the error structure,
`Delete` returns, without panic, that non-nil `*APIError`, and it carries the status
code of the response; if the body does not decode, `Delete` returns, without panic,
a non-nil error that is no `*APIError`: it wraps the decoder's error and names the
status in its text. When the status is in `[200,300)` (so for 204 and an empty
body), `Delete` returns nil. -/
theorem crud_Delete_status {ρ ω T : Type} (exchange : Exchange ρ ω)
    (decodeErr : Decoder (Option APIError))
    (decodePaginated : Decoder (PaginatedResponse T)) (decodeItem : Decoder (ListItem T))
    (newRequest : ω → String → String → Option Bytes → Option PaginationOptions →
      Outcome (ω × Option HttpRequest × Option GoError))
    (cl : Client ρ) (hc : HttpClient ρ) (w w1 w2 : ω) (rq : HttpRequest)
    (path : String) (id : Int) (status : Int) (body : Bytes)
    (hkeep : KeepsStatus decodeErr)
    (hreq : newRequest w "DELETE" (crud.itemEndpoint path id) none none =
      .returned (w1, some rq, none))
    (hhc : cl.httpClient = some hc)
    (hex : exchange hc w1 rq = (w2, .inr ⟨status, body, false⟩)) :
    ((status < 200 ∨ status ≥ 300) →
      (∀ apiErr : APIError,
        decodeErr body (some { HTTPStatusCode := status, Errors := [] }) =
          (some apiErr, none) →
        crud.Delete
            (Client.requester exchange decodeErr decodePaginated decodeItem newRequest cl)
            w path id = .returned (w2, some (.apiError (some apiErr))) ∧
        apiErr.HTTPStatusCode = status) ∧
      (∀ (left : Option APIError) (cause : GoError),
        decodeErr body (some { HTTPStatusCode := status, Errors := [] }) =
          (left, some cause) →
        crud.Delete
            (Client.requester exchange decodeErr decodePaginated decodeItem newRequest cl)
            w path id =
          .returned (w2, some (.wrapped (Client.unparseableText status) cause)))) ∧
    ((200 ≤ status ∧ status < 300) →
      crud.Delete
          (Client.requester exchange decodeErr decodePaginated decodeItem newRequest cl)
          w path id = .returned (w2, none)) := by
  constructor
  · intro hs
    constructor
    · intro apiErr hd
      refine ⟨?_, hkeep body _ apiErr hd⟩
      simp [crud.Delete, Client.requester, hreq, Client.DoNil, Client.Do, hhc, hex, hs, hd]
    · intro left cause hd
      simp [crud.Delete, Client.requester, hreq, Client.DoNil, Client.Do, hhc, hex, hs, hd]
  · intro hs
    have hn : ¬ (status < 200 ∨ status ≥ 300) := by omega
    simp [crud.Delete, Client.requester, hreq, Client.DoNil, Client.Do, hhc, hex, hn]

/-- Witness of C10: a 404 with the body `{}` gives the API error with status 404,
and a 204 with an empty body gives nil. -/
theorem crud_Delete_status_witness :
    (crud.Delete (sampleRequester 404 emptyObject) 0 "/api/users" 999 =
        .returned (1, some (.apiError (some ⟨404, []⟩))) ∧
      (⟨404, []⟩ : APIError).HTTPStatusCode = 404) ∧
    crud.Delete (sampleRequester 204 []) 0 "/api/users" 123 = .returned (1, none) := by
  have hkeep : KeepsStatus (eofOnEmpty (Option APIError)) := by
    intro body before after h
    unfold eofOnEmpty at h
    split at h <;> simp_all
  exact ⟨((crud_Delete_status (fixedExchange 404 emptyObject) (eofOnEmpty (Option APIError))
      (eofOnEmpty (PaginatedResponse Nat)) (eofOnEmpty (ListItem Nat)) plainNewRequest
      sampleClient ⟨none, none, none, 10000000000⟩ 0 0 1
      (scriptedRequest "DELETE" "/api/users/999" none)
      "/api/users" 999 404 emptyObject hkeep rfl rfl rfl).1 (by decide)).1 ⟨404, []⟩ rfl,
   (crud_Delete_status (fixedExchange 204 []) (eofOnEmpty (Option APIError))
      (eofOnEmpty (PaginatedResponse Nat)) (eofOnEmpty (ListItem Nat)) plainNewRequest
      sampleClient ⟨none, none, none, 10000000000⟩ 0 0 1
      (scriptedRequest "DELETE" "/api/users/123" none)
      "/api/users" 123 204 [] hkeep rfl rfl rfl).2 (by decide)⟩

/-- Counterexample to C10 as stated: answered with status 404 and an empty body,
`crud.Delete` through `Client.Do` returns an error that is not an `*APIError`. -/
theorem crud_Delete_404_empty_body_not_api_error :
    ¬ ∃ (w : Nat) (e : Option APIError),
      crud.Delete (sampleRequester 404 []) 0 "/api/users" 999 =
        .returned (w, some (.apiError e)) := by
  rintro ⟨w, e, h⟩
  have hrun : crud.Delete (sampleRequester 404 []) 0 "/api/users" 999 =
      .returned (1, some (.wrapped (Client.unparseableText 404) (.msg "EOF"))) := rfl
  rw [hrun] at h
  simp at h


/-! ## Claims on `Client.Do` -/

/-- C11. For every response whose status is in `[200,300)` and every body,
`Client.Do` with a nil decode target returns the response, its body closed, and a nil
error, whatever the decoders would answer on that body: no decode takes place. -/
theorem Client_Do_nil_target {ρ ω V : Type} (exchange : Exchange ρ ω)
    (decodeErr : Decoder (Option APIError)) (decode : Decoder V)
    (c : Client ρ) (hc : HttpClient ρ) (w w1 : ω) (rq : HttpRequest) (res : HttpResponse)
    (hhc : c.httpClient = some hc) (hex : exchange hc w rq = (w1, .inr res))
    (hs : 200 ≤ res.StatusCode ∧ res.StatusCode < 300) :
    Client.Do exchange decodeErr decode c w (some rq) none =
      .returned (w1, none, some { res with Closed := true }, none) := by
  have hn : ¬ (res.StatusCode < 200 ∨ res.StatusCode ≥ 300) := by omega
  simp [Client.Do, hhc, hex, hn]

/-- Witness of C11: a 200 whose body is not JSON, with decoders that reject every
body. -/
theorem Client_Do_nil_target_witness :
    Client.Do (fixedExchange 200 [105, 110, 118]) (rejectAll (Option APIError))
        (rejectAll Nat) panelClient 0 (some (scriptedRequest "DELETE" "/x/1" none)) none =
      .returned (1, none, some ⟨200, [105, 110, 118], true⟩, none) :=
  Client_Do_nil_target (fixedExchange 200 [105, 110, 118]) (rejectAll (Option APIError))
    (rejectAll Nat) panelClient ⟨none, none, none, tenSeconds⟩ 0 1
    (scriptedRequest "DELETE" "/x/1" none) ⟨200, [105, 110, 118], false⟩ rfl rfl (by decide)

/-- C12. For every response whose status is outside `[200,300)`, whatever its body,
the decoders and the decode target, `Client.Do` returns a nil response and a non-nil
error, and leaves the target as it was. -/
theorem Client_Do_non_2xx_fails {ρ ω V : Type} (exchange : Exchange ρ ω)
    (decodeErr : Decoder (Option APIError)) (decode : Decoder V)
    (c : Client ρ) (hc : HttpClient ρ) (w w1 : ω) (rq : HttpRequest) (res : HttpResponse)
    (v : Option V)
    (hhc : c.httpClient = some hc) (hex : exchange hc w rq = (w1, .inr res))
    (hs : res.StatusCode < 200 ∨ res.StatusCode ≥ 300) :
    ∃ err : GoError,
      Client.Do exchange decodeErr decode c w (some rq) v =
        .returned (w1, v, none, some err) := by
  rcases hd : decodeErr res.Body (some { HTTPStatusCode := res.StatusCode, Errors := [] })
    with ⟨p, _ | cause⟩
  · exact ⟨.apiError p, by simp [Client.Do, hhc, hex, hs, hd]⟩
  · exact ⟨.wrapped (Client.unparseableText res.StatusCode) cause, by
      simp [Client.Do, hhc, hex, hs, hd]⟩

/-- Witness of C12: a 301 with an empty body and a non-nil target. -/
theorem Client_Do_non_2xx_fails_witness :
    ∃ err : GoError,
      Client.Do (fixedExchange 301 []) (eofOnEmpty (Option APIError)) (eofOnEmpty Nat)
          panelClient 0 (some (scriptedRequest "GET" "/x" none)) (some 5) =
        .returned (1, some 5, none, some err) :=
  Client_Do_non_2xx_fails (fixedExchange 301 []) (eofOnEmpty (Option APIError))
    (eofOnEmpty Nat) panelClient ⟨none, none, none, tenSeconds⟩ 0 1
    (scriptedRequest "GET" "/x" none) ⟨301, [], false⟩ (some 5) rfl rfl (by decide)

/-- C13, at the failing input. When the status `s` is outside `[200,300)` and the
body is `null`, which the decoder accepts by setting the pointer `apiErr` to nil,
`Client.Do` returns as its error a nil `*APIError`: no `APIError` value holds the
status `s`. -/
theorem Client_Do_null_error_body {ρ ω V : Type} (exchange : Exchange ρ ω)
    (decodeErr : Decoder (Option APIError)) (decode : Decoder V)
    (c : Client ρ) (hc : HttpClient ρ) (w w1 : ω) (rq : HttpRequest) (status : Int)
    (v : Option V)
    (hhc : c.httpClient = some hc)
    (hex : exchange hc w rq = (w1, .inr ⟨status, nullBody, false⟩))
    (hs : status < 200 ∨ status ≥ 300)
    (hnull : decodeErr nullBody (some { HTTPStatusCode := status, Errors := [] }) =
      (none, none)) :
    Client.Do exchange decodeErr decode c w (some rq) v =
        .returned (w1, v, none, some (.apiError none)) ∧
    ¬ ∃ e : APIError, e.HTTPStatusCode = status ∧
      Client.Do exchange decodeErr decode c w (some rq) v =
        .returned (w1, v, none, some (.apiError (some e))) := by
  have hrun : Client.Do exchange decodeErr decode c w (some rq) v =
      .returned (w1, v, none, some (.apiError none)) := by
    simp [Client.Do, hhc, hex, hs, hnull]
  refine ⟨hrun, ?_⟩
  rintro ⟨e, _, he⟩
  rw [hrun] at he
  simp at he

/-- Witness of C13: a 404 with the body `null`. -/
theorem Client_Do_null_error_body_witness :
    Client.Do (fixedExchange 404 nullBody) nullToNil (eofOnEmpty Nat) panelClient 0
        (some (scriptedRequest "GET" "/x" none)) none =
      .returned (1, none, none, some (.apiError none)) :=
  (Client_Do_null_error_body (fixedExchange 404 nullBody) nullToNil (eofOnEmpty Nat)
    panelClient ⟨none, none, none, tenSeconds⟩ 0 1 (scriptedRequest "GET" "/x" none) 404 none
    rfl rfl (by decide) rfl).1

/-- C14. For every response with status in `[200,300)` and a non-nil decode target:
if the body fails to decode into the target, `Client.Do` returns a nil response and
the non-nil error that wraps the decoder's error; if it decodes, `Client.Do` returns
the response, its body closed, and a nil error, with the decoded value in the target. -/
theorem Client_Do_decode_target {ρ ω V : Type} (exchange : Exchange ρ ω)
    (decodeErr : Decoder (Option APIError)) (decode : Decoder V)
    (c : Client ρ) (hc : HttpClient ρ) (w w1 : ω) (rq : HttpRequest) (res : HttpResponse)
    (tgt : V)
    (hhc : c.httpClient = some hc) (hex : exchange hc w rq = (w1, .inr res))
    (hs : 200 ≤ res.StatusCode ∧ res.StatusCode < 300) :
    (∀ tgt1 cause, decode res.Body tgt = (tgt1, some cause) →
      Client.Do exchange decodeErr decode c w (some rq) (some tgt) =
        .returned (w1, some tgt1, none,
          some (.wrapped "failed to decode successful response: " cause))) ∧
    (∀ tgt1, decode res.Body tgt = (tgt1, none) →
      Client.Do exchange decodeErr decode c w (some rq) (some tgt) =
        .returned (w1, some tgt1, some { res with Closed := true }, none)) := by
  have hn : ¬ (res.StatusCode < 200 ∨ res.StatusCode ≥ 300) := by omega
  constructor
  · intro tgt1 cause hd
    simp [Client.Do, hhc, hex, hn, hd]
  · intro tgt1 hd
    simp [Client.Do, hhc, hex, hn, hd]

/-- Witness of C14: a 200 whose body is rejected, and a 200 whose body `{}` is
accepted. -/
theorem Client_Do_decode_target_witness :
    Client.Do (fixedExchange 200 [105, 110, 118]) (eofOnEmpty (Option APIError))
        (rejectAll Nat) panelClient 0 (some (scriptedRequest "GET" "/x" none)) (some 5) =
      .returned (1, some 5, none,
        some (.wrapped "failed to decode successful response: " (.msg "invalid character"))) ∧
    Client.Do (fixedExchange 200 emptyObject) (eofOnEmpty (Option APIError))
        (eofOnEmpty Nat) panelClient 0 (some (scriptedRequest "GET" "/x" none)) (some 5) =
      .returned (1, some 5, some ⟨200, emptyObject, true⟩, none) :=
  ⟨(Client_Do_decode_target (fixedExchange 200 [105, 110, 118]) (eofOnEmpty (Option APIError))
      (rejectAll Nat) panelClient ⟨none, none, none, tenSeconds⟩ 0 1
      (scriptedRequest "GET" "/x" none) ⟨200, [105, 110, 118], false⟩ 5 rfl rfl (by decide)).1
      5 (.msg "invalid character") rfl,
   (Client_Do_decode_target (fixedExchange 200 emptyObject) (eofOnEmpty (Option APIError))
      (eofOnEmpty Nat) panelClient ⟨none, none, none, tenSeconds⟩ 0 1
      (scriptedRequest "GET" "/x" none) ⟨200, emptyObject, false⟩ 5 rfl rfl (by decide)).2 5 rfl⟩


/-! ## Claims on `Client.NewRequest` -/

/-- C15. For every `PaginationOptions` passed to `Client.NewRequest`, when the
endpoint and the base URL parse and the request is made: the request URL is the
resolved reference whose query is the encoding of `q`, the endpoint's own query
after the options; in `q` the key `page` holds the decimal `Page` when `Page > 0`
and is as in the endpoint otherwise, likewise `per_page` with `PerPage`, and
`include` holds the names joined by `,` in their order when `Include` is non-empty
and is as in the endpoint otherwise. So for an endpoint without these keys, `q` has
`page=<Page>` iff `Page > 0`, `per_page=<PerPage>` iff `PerPage > 0`,
`include=<names>` iff `Include` is non-empty, and `{Page: 0, PerPage: 0}` adds
neither `page` nor `per_page`. -/
theorem Client_NewRequest_query {ρ : Type} (lib : NetLib) (c : Client ρ)
    (method endpoint : String) (body : Option Bytes) (options : PaginationOptions)
    (rel u : URL)
    (hrel : lib.Parse endpoint = .inr rel) (hu : lib.Parse c.baseURL = .inr u)
    (hok : lib.RequestError method (lib.URLString (lib.ResolveReference u
      { rel with RawQuery := lib.Encode (Client.requestQuery (lib.Query rel) options) })) =
        none) :
    (∃ req, Client.NewRequest lib c method endpoint body (some options) = (some req, none) ∧
      req.URL = lib.URLString (lib.ResolveReference u
        { rel with RawQuery := lib.Encode (Client.requestQuery (lib.Query rel) options) })) ∧
    Client.requestQuery (lib.Query rel) options "page" =
      (if options.Page > 0 then some [toString options.Page] else lib.Query rel "page") ∧
    Client.requestQuery (lib.Query rel) options "per_page" =
      (if options.PerPage > 0 then some [toString options.PerPage]
        else lib.Query rel "per_page") ∧
    Client.requestQuery (lib.Query rel) options "include" =
      (if options.Include ≠ [] then some [String.intercalate "," options.Include]
        else lib.Query rel "include") ∧
    (lib.Query rel "page" = none →
      (Client.requestQuery (lib.Query rel) options "page" = some [toString options.Page] ↔
        options.Page > 0)) ∧
    (lib.Query rel "per_page" = none →
      (Client.requestQuery (lib.Query rel) options "per_page" =
        some [toString options.PerPage] ↔ options.PerPage > 0)) ∧
    (lib.Query rel "include" = none →
      (Client.requestQuery (lib.Query rel) options "include" =
        some [String.intercalate "," options.Include] ↔ options.Include ≠ [])) ∧
    (options.Page = 0 → options.PerPage = 0 →
      Client.requestQuery (lib.Query rel) options "page" = lib.Query rel "page" ∧
      Client.requestQuery (lib.Query rel) options "per_page" = lib.Query rel "per_page") := by
  have hpage : Client.requestQuery (lib.Query rel) options "page" =
      (if options.Page > 0 then some [toString options.Page] else lib.Query rel "page") := by
    unfold Client.requestQuery Values.Set
    by_cases h1 : options.Page > 0 <;> by_cases h2 : options.PerPage > 0 <;>
      by_cases h3 : options.Include.length > 0 <;> simp [h1, h2, h3]
  have hper : Client.requestQuery (lib.Query rel) options "per_page" =
      (if options.PerPage > 0 then some [toString options.PerPage]
        else lib.Query rel "per_page") := by
    unfold Client.requestQuery Values.Set
    by_cases h1 : options.Page > 0 <;> by_cases h2 : options.PerPage > 0 <;>
      by_cases h3 : options.Include.length > 0 <;> simp [h1, h2, h3]
  have hinc : Client.requestQuery (lib.Query rel) options "include" =
      (if options.Include ≠ [] then some [String.intercalate "," options.Include]
        else lib.Query rel "include") := by
    unfold Client.requestQuery Values.Set
    by_cases h1 : options.Page > 0 <;> by_cases h2 : options.PerPage > 0 <;>
      rcases h3 : options.Include with _ | ⟨name, names⟩ <;> simp [h1, h2]
  refine ⟨?_, hpage, hper, hinc, ?_, ?_, ?_, ?_⟩
  · simp only [Client.NewRequest, hrel, hu, Client.requestRef, hok]
    exact ⟨_, rfl, rfl⟩
  · intro h0
    rw [hpage, h0]
    by_cases h1 : options.Page > 0 <;> simp [h1]
  · intro h0
    rw [hper, h0]
    by_cases h1 : options.PerPage > 0 <;> simp [h1]
  · intro h0
    rw [hinc, h0]
    by_cases h1 : options.Include = [] <;> simp [h1]
  · intro h1 h2
    rw [hpage, hper]
    simp [h1, h2]


/-- Witness of C15: page 2, no page size and one include on `/api/users`. -/
theorem Client_NewRequest_query_witness :
    (∃ req, Client.NewRequest sampleLib panelClient "GET" "/api/users" none
        (some ⟨2, 0, ["egg"]⟩) = (some req, none) ∧
      req.URL = "https://fake-panel.com/api/users?include=egg&page=2") ∧
    Client.requestQuery Values.empty ⟨2, 0, ["egg"]⟩ "page" = some ["2"] ∧
    Client.requestQuery Values.empty ⟨2, 0, ["egg"]⟩ "per_page" = none ∧
    Client.requestQuery Values.empty ⟨2, 0, ["egg"]⟩ "include" = some ["egg"] := by
  have h := Client_NewRequest_query sampleLib panelClient "GET" "/api/users" none
    ⟨2, 0, ["egg"]⟩ { fakePanel with Scheme := "", Host := "", Path := "/api/users" }
    fakePanel rfl rfl rfl
  exact ⟨h.1, h.2.1, h.2.2.1, h.2.2.2.1⟩

/-- C16. Every request `Client.NewRequest` returns carries the header
`Authorization` equal to `Bearer ` followed by the client's API key and the header
`Accept` equal to `application/json`; it carries `Content-Type: application/json`
if and only if a non-nil body was supplied, and no `Content-Type` otherwise. -/
theorem Client_NewRequest_headers {ρ : Type} (lib : NetLib) (c : Client ρ)
    (method endpoint : String) (body : Option Bytes) (options : Option PaginationOptions)
    (req : HttpRequest)
    (h : Client.NewRequest lib c method endpoint body options = (some req, none)) :
    headerGet req.Header "Authorization" = some ("Bearer " ++ c.apiKey) ∧
    headerGet req.Header "Accept" = some "application/json" ∧
    (headerGet req.Header "Content-Type" = some "application/json" ↔ body ≠ none) ∧
    (body = none → headerGet req.Header "Content-Type" = none) := by
  have hh : req.Header = Client.requestHeader c.apiKey body := by
    unfold Client.NewRequest at h
    rcases h1 : lib.Parse endpoint with e | rel
    · simp [h1] at h
    · rcases h2 : lib.Parse c.baseURL with e | u
      · simp [h1, h2] at h
      · simp only [h1, h2] at h
        split at h
        · simp at h
        · simp only [Prod.mk.injEq, Option.some.injEq, and_true] at h
          rw [← h]
  rw [hh]
  cases body with
  | none => simp [Client.requestHeader, headerSet, headerGet]
  | some b => simp [Client.requestHeader, headerSet, headerGet]

/-- Witness of C16: a `POST` with a body and a `GET` without one. -/
theorem Client_NewRequest_headers_witness :
    (headerGet [("Authorization", "Bearer ptla_x"), ("Accept", "application/json"),
        ("Content-Type", "application/json")] "Authorization" = some ("Bearer " ++ "ptla_x") ∧
      headerGet [("Authorization", "Bearer ptla_x"), ("Accept", "application/json"),
        ("Content-Type", "application/json")] "Accept" = some "application/json" ∧
      (headerGet [("Authorization", "Bearer ptla_x"), ("Accept", "application/json"),
        ("Content-Type", "application/json")] "Content-Type" = some "application/json" ↔
        some ([1] : Bytes) ≠ none) ∧
      (some ([1] : Bytes) = none →
        headerGet [("Authorization", "Bearer ptla_x"), ("Accept", "application/json"),
          ("Content-Type", "application/json")] "Content-Type" = none)) ∧
    Client.NewRequest sampleLib panelClient "POST" "/api/users" (some [1]) none =
      (some ⟨"POST", "https://fake-panel.com/api/users",
        [("Authorization", "Bearer ptla_x"), ("Accept", "application/json"),
          ("Content-Type", "application/json")], some [1]⟩, none) :=
  ⟨Client_NewRequest_headers sampleLib panelClient "POST" "/api/users" (some [1]) none
    ⟨"POST", "https://fake-panel.com/api/users",
      [("Authorization", "Bearer ptla_x"), ("Accept", "application/json"),
        ("Content-Type", "application/json")], some [1]⟩ rfl, rfl⟩


/-! ## Lemmas on `NewClient` -/

theorem startsWith_iff (s pre : String) :
    startsWith s pre = true ↔ ∃ rest : String, s = pre ++ rest := by
  unfold startsWith
  rw [List.isPrefixOf_iff_prefix]
  constructor
  · rintro ⟨t, ht⟩
    refine ⟨⟨t⟩, ?_⟩
    apply String.ext
    simp [String.data_append, ht]
  · rintro ⟨rest, rfl⟩
    exact ⟨rest.data, by simp [String.data_append]⟩

theorem applyOptions_eq_foldl {ρ : Type} (opts : List (ClientOption ρ)) :
    ∀ c : Client ρ, applyOptions c opts = opts.foldl (fun c o => o c) c := by
  induction opts with
  | nil => intro c; rfl
  | cons o rest ih => intro c; simp [applyOptions, ih]

theorem applyOptions_append {ρ : Type} (pre post : List (ClientOption ρ)) (c : Client ρ) :
    applyOptions c (pre ++ post) = applyOptions (applyOptions c pre) post := by
  simp [applyOptions_eq_foldl]

/-! ## Claims on `NewClient` -/

/-- C17. For a base URL that `url.ParseRequestURI` accepts, and any options:
with `ApplicationKey`, `NewClient` succeeds exactly when the key starts with `ptla_`,
and with `ClientKey` exactly when it starts with `ptlc_`; when the key lacks the
prefix of its key type, `NewClient` returns a nil client and an error. -/
theorem NewClient_key_type_check {ρ : Type} (lib : NetLib) (baseURL apiKey : String)
    (opts : List (ClientOption ρ)) (u : URL)
    (hurl : lib.ParseRequestURI baseURL = .inr u) :
    ((∃ cl, NewClient lib baseURL apiKey ApplicationKey opts = (some cl, none)) ↔
      ∃ rest : String, apiKey = "ptla_" ++ rest) ∧
    ((∃ cl, NewClient lib baseURL apiKey ClientKey opts = (some cl, none)) ↔
      ∃ rest : String, apiKey = "ptlc_" ++ rest) ∧
    ((¬ ∃ rest : String, apiKey = "ptla_" ++ rest) →
      ∃ err, NewClient lib baseURL apiKey ApplicationKey opts = (none, some err)) ∧
    ((¬ ∃ rest : String, apiKey = "ptlc_" ++ rest) →
      ∃ err, NewClient lib baseURL apiKey ClientKey opts = (none, some err)) := by
  have h01 : ¬ (ApplicationKey = ClientKey) := by decide
  have h10 : ¬ (ClientKey = ApplicationKey) := by decide
  simp only [← startsWith_iff]
  refine ⟨?_, ?_, ?_, ?_⟩
  · by_cases hp : startsWith apiKey "ptla_" = true
    · simp [NewClient, hp, hurl, h01]
    · simp [NewClient, hp]
  · by_cases hp : startsWith apiKey "ptlc_" = true
    · simp [NewClient, hp, hurl, h10]
    · simp [NewClient, hp, h10]
  · intro hp
    have hrun : NewClient lib baseURL apiKey ApplicationKey opts =
        (none, some (.msg "invalid application key: must start with \x27ptla_\x27")) := by
      simp [NewClient, hp]
    exact ⟨_, hrun⟩
  · intro hp
    have hrun : NewClient lib baseURL apiKey ClientKey opts =
        (none, some (.msg "invalid client key: must start with \x27ptlc_\x27")) := by
      simp [NewClient, hp, h10]
    exact ⟨_, hrun⟩

/-- Witness of C17: `ptlc_x` fails as an application key and succeeds as a client
key, `ptla_x` does the reverse, and `noprefix` fails for both. -/
theorem NewClient_key_type_check_witness :
    ((∃ cl, NewClient sampleLib "https://fake-panel.com" "ptla_x" ApplicationKey
        ([] : List (ClientOption Unit)) = (some cl, none)) ↔
      ∃ rest : String, "ptla_x" = "ptla_" ++ rest) ∧
    (NewClient sampleLib "https://fake-panel.com" "ptla_x" ApplicationKey
        ([] : List (ClientOption Unit))).2 = none ∧
    (NewClient sampleLib "https://fake-panel.com" "ptla_x" ClientKey
        ([] : List (ClientOption Unit))).2 ≠ none ∧
    (NewClient sampleLib "https://fake-panel.com" "ptlc_x" ApplicationKey
        ([] : List (ClientOption Unit))).2 ≠ none ∧
    (NewClient sampleLib "https://fake-panel.com" "ptlc_x" ClientKey
        ([] : List (ClientOption Unit))).2 = none ∧
    (NewClient sampleLib "https://fake-panel.com" "noprefix" ApplicationKey
        ([] : List (ClientOption Unit))).2 ≠ none ∧
    (NewClient sampleLib "https://fake-panel.com" "noprefix" ClientKey
        ([] : List (ClientOption Unit))).2 ≠ none :=
  ⟨(NewClient_key_type_check sampleLib "https://fake-panel.com" "ptla_x" [] fakePanel rfl).1,
    by decide, by decide, by decide, by decide, by decide, by decide⟩


/-- C18, at the failing input. The base URL `/api` is a bare path, which
`url.ParseRequestURI` accepts as an absolute path; with the key `ptla_x` of the
right prefix `NewClient` then succeeds and returns a client whose base URL is `/api`,
and no invalid-baseURL error. -/
theorem NewClient_accepts_bare_path {ρ : Type} (lib : NetLib) (u : URL)
    (haccept : lib.ParseRequestURI "/api" = .inr u) :
    NewClient lib "/api" "ptla_x" ApplicationKey ([] : List (ClientOption ρ)) =
      (some { baseURL := "/api", apiKey := "ptla_x",
              httpClient := some ⟨none, none, none, 10 * 1000000000⟩ }, none) := by
  have hp : startsWith "ptla_x" "ptla_" = true := by decide
  have h01 : ¬ (ApplicationKey = ClientKey) := by decide
  simp [NewClient, hp, h01, haccept, applyOptions, defaultClient, tenSeconds]

/-- Witness of C18: the bare path `/api` is taken as a base URL. -/
theorem NewClient_accepts_bare_path_witness :
    NewClient sampleLib "/api" "ptla_x" ApplicationKey ([] : List (ClientOption Unit)) =
      (some { baseURL := "/api", apiKey := "ptla_x",
              httpClient := some ⟨none, none, none, 10 * 1000000000⟩ }, none) :=
  NewClient_accepts_bare_path sampleLib
    { fakePanel with Scheme := "", Host := "", Path := "/api" } rfl

/-- C19. When the key and the base URL pass the checks, `NewClient` returns the left
fold of the options over the default client, whose HTTP client has a 10-second
timeout and nothing else set. So the later option wins: options that end in
`WithTimeout a, WithTimeout b` give the timeout `b`, and options that end in
`WithHTTPClient hc` give exactly `hc`, whatever came before. -/
theorem NewClient_options_left_fold {ρ : Type} (lib : NetLib) (baseURL apiKey : String)
    (keyType : KeyType) (opts : List (ClientOption ρ)) (u : URL)
    (hurl : lib.ParseRequestURI baseURL = .inr u)
    (hkey : (keyType = ApplicationKey → startsWith apiKey "ptla_" = true) ∧
      (keyType = ClientKey → startsWith apiKey "ptlc_" = true)) :
    NewClient lib baseURL apiKey keyType opts =
      (some (opts.foldl (fun c o => o c)
        { baseURL := baseURL, apiKey := apiKey,
          httpClient := some ⟨none, none, none, 10 * 1000000000⟩ }), none) ∧
    (∀ (pre : List (ClientOption ρ)) (a b : Int),
      ∃ cl hc, NewClient lib baseURL apiKey keyType (pre ++ [WithTimeout a, WithTimeout b]) =
          (some cl, none) ∧
        cl.httpClient = some hc ∧ hc.Timeout = b) ∧
    (∀ (pre : List (ClientOption ρ)) (hc : Option (HttpClient ρ)),
      ∃ cl, NewClient lib baseURL apiKey keyType (pre ++ [WithHTTPClient hc]) =
          (some cl, none) ∧
        cl.httpClient = hc) := by
  have hrun : ∀ os : List (ClientOption ρ), NewClient lib baseURL apiKey keyType os =
      (some (applyOptions (defaultClient ρ baseURL apiKey) os), none) := by
    intro os
    have h1 : ¬ (keyType = ApplicationKey ∧ ¬ startsWith apiKey "ptla_" = true) :=
      fun h => h.2 (hkey.1 h.1)
    have h2 : ¬ (keyType = ClientKey ∧ ¬ startsWith apiKey "ptlc_" = true) :=
      fun h => h.2 (hkey.2 h.1)
    simp only [NewClient, h1, h2, if_false, hurl]
  refine ⟨?_, ?_, ?_⟩
  · rw [hrun, applyOptions_eq_foldl]
    rfl
  · intro pre a b
    rw [hrun, applyOptions_append]
    generalize applyOptions (defaultClient ρ baseURL apiKey) pre = c0
    rcases h0 : c0.httpClient with _ | hc0
    · exact ⟨_, ⟨none, none, none, b⟩, rfl, by simp [applyOptions, WithTimeout, h0], rfl⟩
    · exact ⟨_, ⟨hc0.Transport, hc0.CheckRedirect, hc0.Jar, b⟩, rfl,
        by simp [applyOptions, WithTimeout, h0], rfl⟩
  · intro pre hc
    rw [hrun, applyOptions_append]
    exact ⟨_, rfl, rfl⟩

/-- Witness of C19: `WithTimeout 5, WithTimeout 7` gives the timeout 7. -/
theorem NewClient_options_left_fold_witness :
    NewClient sampleLib "https://fake-panel.com" "ptlc_x" ClientKey
        [WithTimeout 5, WithTimeout 7] =
      (some { baseURL := "https://fake-panel.com", apiKey := "ptlc_x",
              httpClient := some (⟨none, none, none, 7⟩ : HttpClient Unit) }, none) :=
  (NewClient_options_left_fold sampleLib "https://fake-panel.com" "ptlc_x" ClientKey
    [WithTimeout 5, WithTimeout 7] fakePanel rfl ⟨by decide, by decide⟩).1

/-- C20. Applied to a client that has an HTTP client, `WithTransport rt` sets that
HTTP client's `Transport` to `rt` and leaves its `Timeout`, its `CheckRedirect`, its
`Jar`, and the client's base URL and key as they were; `WithTimeout d` sets the
`Timeout` to `d` and leaves the `Transport` and all the rest as they were. -/
theorem options_change_one_field {ρ : Type} (c : Client ρ) (hc : HttpClient ρ)
    (rt : Option ρ) (d : Int) (h : c.httpClient = some hc) :
    WithTransport rt c =
      { baseURL := c.baseURL, apiKey := c.apiKey,
        httpClient := some ⟨rt, hc.CheckRedirect, hc.Jar, hc.Timeout⟩ } ∧
    WithTimeout d c =
      { baseURL := c.baseURL, apiKey := c.apiKey,
        httpClient := some ⟨hc.Transport, hc.CheckRedirect, hc.Jar, d⟩ } := by
  simp [WithTransport, WithTimeout, h]

/-- Witness of C20: the default client keeps its timeout under `WithTransport`, and
its transport under `WithTimeout`. -/
theorem options_change_one_field_witness :
    WithTransport (some ()) panelClient =
      { baseURL := "https://fake-panel.com", apiKey := "ptla_x",
        httpClient := some ⟨some (), none, none, 10 * 1000000000⟩ } ∧
    WithTimeout 3 panelClient =
      { baseURL := "https://fake-panel.com", apiKey := "ptla_x",
        httpClient := some ⟨none, none, none, 3⟩ } :=
  options_change_one_field panelClient ⟨none, none, none, tenSeconds⟩ (some ()) 3 rfl


/-! ## Claims on the client's HTTP client and on walks without end -/

/-- C21, at the failing input. With the single option `WithHTTPClient(nil)`,
`NewClient` succeeds and returns a client whose HTTP client is nil, and `Client.Do`
on that client panics, whatever the request and the decode target. -/
theorem NewClient_nil_http_client {ρ ω V : Type} (lib : NetLib) (u : URL)
    (exchange : Exchange ρ ω) (decodeErr : Decoder (Option APIError)) (decode : Decoder V)
    (w : ω) (req : Option HttpRequest) (v : Option V)
    (hurl : lib.ParseRequestURI "https://fake-panel.com" = .inr u) :
    ∃ cl : Client ρ,
      NewClient lib "https://fake-panel.com" "ptla_x" ApplicationKey [WithHTTPClient none] =
        (some cl, none) ∧
      cl.httpClient = none ∧
      Client.Do exchange decodeErr decode cl w req v = .panicked := by
  have hp : startsWith "ptla_x" "ptla_" = true := by decide
  have h01 : ¬ (ApplicationKey = ClientKey) := by decide
  refine ⟨{ baseURL := "https://fake-panel.com", apiKey := "ptla_x", httpClient := none },
    ?_, rfl, ?_⟩
  · simp [NewClient, hp, h01, hurl, applyOptions, defaultClient, WithHTTPClient]
  · cases req <;> simp [Client.Do]

/-- Witness of C21: the client built with `WithHTTPClient(nil)` panics in `Do`. -/
theorem NewClient_nil_http_client_witness :
    ∃ cl : Client Unit,
      NewClient sampleLib "https://fake-panel.com" "ptla_x" ApplicationKey
        [WithHTTPClient none] = (some cl, none) ∧
      cl.httpClient = none ∧
      Client.Do (fixedExchange 200 []) (eofOnEmpty (Option APIError)) (eofOnEmpty Nat) cl 0
        (some (scriptedRequest "GET" "/x" none)) none = .panicked :=
  NewClient_nil_http_client sampleLib fakePanel (fixedExchange 200 [])
    (eofOnEmpty (Option APIError)) (eofOnEmpty Nat) 0
    (some (scriptedRequest "GET" "/x" none)) none rfl

theorem continuing_List (limit : Option Nat) (k : Nat) (path : String)
    (opt : Option PaginationOptions) (h : limit.all (fun n => decide (k < n)) = true) :
    crud.List (continuing limit) k path opt =
      .returned (k + 1, some [], some (continuingMeta k), none) := by
  simp [crud.List, continuing, h, crud.listFill, nils]

theorem continuing_List_fail (n k : Nat) (path : String)
    (opt : Option PaginationOptions) (h : n ≤ k) :
    crud.List (continuing (some n)) k path opt =
      .returned (k + 1, none, none, some (.msg "connection refused")) := by
  have hk : ¬ k < n := by omega
  simp [crud.List, continuing, hk]

theorem continuing_continues (k : Nat) : Continues continuingMeta k := by
  simp [Continues, continuingMeta]

/-- C22. `crud.ListAll` has no cap on the pages it fetches. On a requester that
serves every page and never reports `current_page >= total_pages`, it does not
return, whatever the fuel. And for every bound `n` there is a run of `n + 1`
successful responses, each reporting `current_page < total_pages`, on which the walk
makes more than `n` calls to `List`. -/
theorem crud_ListAll_no_page_cap {σ T : Type} (c : Requester σ T) (path : String)
    (perPage : Int) (st : Nat → σ) (items : Nat → List (Option T)) (meta : Nat → Meta)
    (hs : ∀ n, ServesPages c path (if perPage ≤ 0 then 100 else perPage) st items meta n)
    (hc : ∀ k, Continues meta k) :
    (∀ fuel : Nat, crud.ListAll c (st 0) path perPage fuel = none) ∧
    (∀ n : Nat,
      ServesPages (continuing (some (n + 1))) path (if perPage ≤ 0 then 100 else perPage)
        (fun k => k) (fun _ => []) continuingMeta (n + 1) ∧
      (∀ k, k < n + 1 → Continues continuingMeta k) ∧
      ∃ (s : Nat) (log : List Call) (r : Slice (Option Nat) × Option GoError),
        crud.ListAll (continuing (some (n + 1))).traced (0, []) path perPage (n + 2) =
          some (.returned ((s, log), r)) ∧
        n < (requestsOf log).length) := by
  constructor
  · intro fuel
    rw [ListAll_start c (st 0) path perPage _ items]
    have h := loop_skip c path _ st items meta fuel (hs fuel) (fun k _ => hc k) 0 fuel 0
      (by simp)
    rw [Nat.zero_add] at h
    rw [h]
    rfl
  · intro n
    have hserves : ServesPages (continuing (some (n + 1))) path
        (if perPage ≤ 0 then 100 else perPage) (fun k => k) (fun _ => []) continuingMeta
        (n + 1) := by
      intro k hk
      exact continuing_List (some (n + 1)) k path _ (by simpa using hk)
    refine ⟨hserves, fun k _ => continuing_continues k, ?_⟩
    have hs1 := servesPages_traced (continuing (some (n + 1))) path _ (fun k => k)
      (fun _ => []) continuingMeta (n + 1) hserves
    have hfail : crud.List (continuing (some (n + 1))).traced
        (n + 1, walkLog (continuing (some (n + 1))) path
          (if perPage ≤ 0 then 100 else perPage) (fun k => k) (n + 1)) path
        (some (pageOptions (if perPage ≤ 0 then 100 else perPage) (n + 1))) =
          .returned ((n + 1 + 1, walkLog (continuing (some (n + 1))) path
            (if perPage ≤ 0 then 100 else perPage) (fun k => k) (n + 1 + 1)),
            none, none, some (.msg "connection refused")) := by
      rw [List_traced, continuing_List_fail (n + 1) (n + 1) path _ (le_refl _)]
      rfl
    refine ⟨n + 1 + 1, walkLog (continuing (some (n + 1))) path
      (if perPage ≤ 0 then 100 else perPage) (fun k => k) (n + 1 + 1),
      (none, some (.msg "connection refused")), ?_, ?_⟩
    · exact ListAll_walk_fail (continuing (some (n + 1))).traced path perPage _
        (fun _ => []) continuingMeta (n + 1) hs1 (fun k _ => continuing_continues k) _
        none none _ hfail (n + 2) (le_refl _)
    · rw [requestsOf_walkLog]
      simp only [List.length_map, List.length_range]
      omega

/-- Witness of C22: the server `continuing none` is not done after 50 page fetches. -/
theorem crud_ListAll_no_page_cap_witness :
    crud.ListAll (continuing none) 0 "/p" 100 50 = none := by
  have hs : ∀ n, ServesPages (continuing none) "/p" (if (100 : Int) ≤ 0 then 100 else 100)
      (fun k => k) (fun _ => []) continuingMeta n := by
    intro n k _
    exact continuing_List none k "/p" _ rfl
  exact (crud_ListAll_no_page_cap (continuing none) "/p" 100 (fun k => k) (fun _ => [])
    continuingMeta hs continuing_continues).1 50


/-! ## Claims on the service wrappers and on `Client.NewRequest` with a query -/

/-- C23, at the failing input. Through `Client.Do`, on a response with a status in
`[200,300)` and a body `b`: `Do` returns the response with its body closed, so when
`io.ReadAll` fails on the closed body with the error `e`, as it does for a body that
holds bytes, `filesService.GetContents` returns the empty string and the error that
wraps `e`, not `string(b)` and nil. -/
theorem filesService_GetContents_closed_body {ρ ω T : Type} (exchange : Exchange ρ ω)
    (decodeErr : Decoder (Option APIError))
    (decodePaginated : Decoder (PaginatedResponse T)) (decodeItem : Decoder (ListItem T))
    (newRequest : ω → String → String → Option Bytes → Option PaginationOptions →
      Outcome (ω × Option HttpRequest × Option GoError))
    (cl : Client ρ) (hc : HttpClient ρ) (queryEscape : String → String)
    (readAll : HttpResponse → Bytes × Option GoError)
    (w w1 w2 : ω) (rq : HttpRequest) (serverIdentifier filePath : String)
    (status : Int) (b got : Bytes) (e : GoError)
    (hreq : newRequest w "GET"
      ("/api/client/servers/" ++ serverIdentifier ++ "/files/contents?file=" ++
        queryEscape filePath) none none = .returned (w1, some rq, none))
    (hhc : cl.httpClient = some hc)
    (hex : exchange hc w1 rq = (w2, .inr ⟨status, b, false⟩))
    (hs : 200 ≤ status ∧ status < 300)
    (hread : readAll ⟨status, b, true⟩ = (got, some e)) :
    filesService.GetContents
        (Client.requester exchange decodeErr decodePaginated decodeItem newRequest cl)
        queryEscape readAll w serverIdentifier filePath =
      .returned (w2, [], some (.wrapped "failed to read response body: " e)) := by
  have hn : ¬ (status < 200 ∨ status ≥ 300) := by omega
  simp [filesService.GetContents, Client.requester, hreq, Client.DoNil, Client.Do, hhc, hex,
    hn, hread]

/-- Witness of C23: a 200 with the body `hi` read through the client. -/
theorem filesService_GetContents_closed_body_witness :
    filesService.GetContents (sampleRequester 200 [104, 105]) (fun x => x) readAllBody 0
        "srv" "a.txt" =
      .returned (1, [], some (.wrapped "failed to read response body: "
        (.msg "http: read on closed response body"))) :=
  filesService_GetContents_closed_body (fixedExchange 200 [104, 105])
    (eofOnEmpty (Option APIError)) (eofOnEmpty (PaginatedResponse Nat))
    (eofOnEmpty (ListItem Nat)) plainNewRequest sampleClient ⟨none, none, none, 10000000000⟩
    (fun x => x) readAllBody 0 0 1
    (scriptedRequest "GET" "/api/client/servers/srv/files/contents?file=a.txt" none)
    "srv" "a.txt" 200 [104, 105] [] (.msg "http: read on closed response body")
    rfl rfl rfl (by decide) rfl

/-- C24, amended. For every endpoint, with or without a query string, and every
`PaginationOptions`, when the endpoint and the base URL parse and the request is
made: the request URL is the reference resolved against the base URL by
`ResolveReference`, with the encoding of the query `q` for its query. `q` keeps every
parameter of the endpoint other than `page`, `per_page` and `include` with its
values; it keeps `page`, `per_page` or `include` of the endpoint when the option
does not set it (`Page <= 0`, `PerPage <= 0`, empty `Include`), and holds the
option's value in place of the endpoint's when the option sets it. -/
theorem Client_NewRequest_keeps_query {ρ : Type} (lib : NetLib) (c : Client ρ)
    (method endpoint : String) (body : Option Bytes) (options : PaginationOptions)
    (rel u : URL)
    (hrel : lib.Parse endpoint = .inr rel) (hu : lib.Parse c.baseURL = .inr u)
    (hok : lib.RequestError method (lib.URLString (lib.ResolveReference u
      { rel with RawQuery := lib.Encode (Client.requestQuery (lib.Query rel) options) })) =
        none) :
    (∃ req, Client.NewRequest lib c method endpoint body (some options) = (some req, none) ∧
      req.URL = lib.URLString (lib.ResolveReference u
        { rel with RawQuery := lib.Encode (Client.requestQuery (lib.Query rel) options) })) ∧
    (∀ key, key ≠ "page" → key ≠ "per_page" → key ≠ "include" →
      Client.requestQuery (lib.Query rel) options key = lib.Query rel key) ∧
    (options.Page ≤ 0 →
      Client.requestQuery (lib.Query rel) options "page" = lib.Query rel "page") ∧
    (options.PerPage ≤ 0 →
      Client.requestQuery (lib.Query rel) options "per_page" = lib.Query rel "per_page") ∧
    (options.Include = [] →
      Client.requestQuery (lib.Query rel) options "include" = lib.Query rel "include") ∧
    (options.Page > 0 →
      Client.requestQuery (lib.Query rel) options "page" = some [toString options.Page]) ∧
    (options.PerPage > 0 →
      Client.requestQuery (lib.Query rel) options "per_page" =
        some [toString options.PerPage]) ∧
    (options.Include ≠ [] →
      Client.requestQuery (lib.Query rel) options "include" =
        some [String.intercalate "," options.Include]) := by
  refine ⟨?_, ?_, ?_, ?_, ?_, ?_, ?_, ?_⟩
  · simp only [Client.NewRequest, hrel, hu, Client.requestRef, hok]
    exact ⟨_, rfl, rfl⟩
  · intro key h1 h2 h3
    unfold Client.requestQuery Values.Set
    by_cases p1 : options.Page > 0 <;> by_cases p2 : options.PerPage > 0 <;>
      by_cases p3 : options.Include.length > 0 <;> simp [p1, p2, p3, h1, h2, h3]
  · intro h
    have p1 : ¬ options.Page > 0 := by omega
    unfold Client.requestQuery Values.Set
    by_cases p2 : options.PerPage > 0 <;>
      by_cases p3 : options.Include.length > 0 <;> simp [p1, p2, p3]
  · intro h
    have p2 : ¬ options.PerPage > 0 := by omega
    unfold Client.requestQuery Values.Set
    by_cases p1 : options.Page > 0 <;>
      by_cases p3 : options.Include.length > 0 <;> simp [p1, p2, p3]
  · intro h
    unfold Client.requestQuery Values.Set
    by_cases p1 : options.Page > 0 <;> by_cases p2 : options.PerPage > 0 <;>
      simp [p1, p2, h]
  · intro p1
    unfold Client.requestQuery Values.Set
    by_cases p2 : options.PerPage > 0 <;>
      by_cases p3 : options.Include.length > 0 <;> simp [p1, p2, p3]
  · intro p2
    unfold Client.requestQuery Values.Set
    by_cases p1 : options.Page > 0 <;>
      by_cases p3 : options.Include.length > 0 <;> simp [p1, p2, p3]
  · intro h
    have p3 : options.Include.length > 0 := List.length_pos.mpr h
    unfold Client.requestQuery Values.Set
    by_cases p1 : options.Page > 0 <;> by_cases p2 : options.PerPage > 0 <;>
      simp [p1, p2, p3]

/-- Witness of C24: a page size added to `/api/users?page=5&sort=name`. -/
theorem Client_NewRequest_keeps_query_witness :
    (∃ req, Client.NewRequest queryLib panelClient "GET" "/api/users?page=5&sort=name" none
        (some ⟨0, 10, []⟩) = (some req, none) ∧
      req.URL = "https://fake-panel.com/api/users?page=5&per_page=10&sort=name") ∧
    (∀ key, key ≠ "page" → key ≠ "per_page" → key ≠ "include" →
      Client.requestQuery pageAndSort ⟨0, 10, []⟩ key = pageAndSort key) := by
  have h := Client_NewRequest_keeps_query queryLib panelClient "GET"
    "/api/users?page=5&sort=name" none ⟨0, 10, []⟩
    { fakePanel with Scheme := "", Host := "", Path := "/api/users",
                     RawQuery := "page=5&sort=name" }
    fakePanel rfl rfl rfl
  exact ⟨h.1, h.2.1⟩

/-- Counterexample to C24 as stated: on the endpoint `/api/users?page=5&sort=name`
with `Page = 2`, the request URL carries `page=2`, and the parameter `page=5` of the
endpoint is not kept. -/
theorem Client_NewRequest_replaces_page :
    Client.NewRequest queryLib panelClient "GET" "/api/users?page=5&sort=name" none
        (some ⟨2, 0, []⟩) =
      (some ⟨"GET", "https://fake-panel.com/api/users?page=2&sort=name",
        [("Authorization", "Bearer ptla_x"), ("Accept", "application/json")], none⟩, none) ∧
    pageAndSort "page" = some ["5"] ∧
    Client.requestQuery pageAndSort ⟨2, 0, []⟩ "page" ≠ pageAndSort "page" := by
  refine ⟨rfl, rfl, ?_⟩
  decide


/-! ## Lemmas on `pathEscape` -/

theorem upperHex_ne_slash : ∀ n, n < 16 → upperHex n ≠ '/' := by decide

theorem percentByte_no_slash (b : UInt8) : '/' ∉ percentByte b := by
  have hb : b.toNat < 256 := b.val.isLt
  have h1 : b.toNat / 16 < 16 := by omega
  have h2 : b.toNat % 16 < 16 := by omega
  simp only [percentByte, List.mem_cons, List.mem_singleton, List.not_mem_nil, or_false,
    not_or]
  exact ⟨by decide, fun h => upperHex_ne_slash _ h1 h.symm,
    fun h => upperHex_ne_slash _ h2 h.symm⟩

theorem pathEscape_no_slash (s : String) : '/' ∉ (pathEscape s).data := by
  simp only [pathEscape, List.mem_flatMap, not_exists, not_and]
  intro c _ hmem
  by_cases hk : keptInSegment c = true
  · simp only [hk, if_true, List.mem_singleton] at hmem
    subst hmem
    exact absurd hk (by decide)
  · rw [if_neg hk, List.mem_flatMap] at hmem
    obtain ⟨b, _, hb⟩ := hmem
    exact percentByte_no_slash b hb

theorem flatMap_kept (l : List Char) (h : ∀ ch ∈ l, keptInSegment ch = true) :
    l.flatMap (fun c =>
      if keptInSegment c then [c] else (String.utf8EncodeChar c).flatMap percentByte) = l := by
  induction l with
  | nil => rfl
  | cons a t ih =>
    have ha := h a (List.mem_cons_self a t)
    have ht := ih (fun ch hch => h ch (List.mem_cons_of_mem a hch))
    simp only [List.flatMap_cons, ha, if_true, ht, List.singleton_append]

theorem pathEscape_unreserved (s : String) (h : ∀ ch ∈ s.data, unreserved ch = true) :
    pathEscape s = s := by
  have hk : ∀ ch ∈ s.data, keptInSegment ch = true := by
    intro ch hch
    have := h ch hch
    simp only [unreserved, keptInSegment, Bool.or_eq_true] at this ⊢
    rcases this with h1 | h2
    · exact Or.inl h1
    · right
      simp only [List.elem_eq_mem, decide_eq_true_eq, List.mem_cons, List.mem_singleton,
        List.not_mem_nil, or_false] at h2 ⊢
      tauto
  simp only [pathEscape, flatMap_kept s.data hk]


/-- C25. For every external ID, when the requester builds the request:
`serversService.GetExternal` makes one `NewRequest`, a `GET` on
`/api/application/servers/external/` followed by the path-escaped ID, with no body
and no options, and one `Do` on it. The escaped ID holds no `/`, so it is a single
path segment; an ID made only of unreserved characters is left as it is; and
`external/with/slashes` becomes `external%2Fwith%2Fslashes`. -/
theorem serversService_GetExternal_endpoint {σ T : Type} (c : Requester σ T) (s s1 s2 : σ)
    (externalID : String) (req : Option HttpRequest) (env : ListItem T)
    (res : Option HttpResponse) (err : Option GoError)
    (hreq : c.NewRequest s "GET"
      ("/api/application/servers/external/" ++ pathEscape externalID) none none =
        .returned (s1, req, none))
    (hdo : c.DoItem s1 req (ListItem.zero T) = .returned (s2, env, res, err)) :
    (∃ server, serversService.GetExternal c.traced (s, []) externalID =
      .returned ((s2, [.newRequest "GET"
          ("/api/application/servers/external/" ++ pathEscape externalID) none none,
        .doCall req .item]), server, err)) ∧
    '/' ∉ (pathEscape externalID).data ∧
    ((∀ ch ∈ externalID.data, unreserved ch = true) → pathEscape externalID = externalID) ∧
    pathEscape "external/with/slashes" = "external%2Fwith%2Fslashes" := by
  refine ⟨?_, pathEscape_no_slash externalID, pathEscape_unreserved externalID, by decide⟩
  cases err with
  | none =>
    exact ⟨env.Attributes, by
      simp [serversService.GetExternal, serversService.externalEndpoint, Requester.traced,
        hreq, hdo]⟩
  | some e =>
    exact ⟨none, by
      simp [serversService.GetExternal, serversService.externalEndpoint, Requester.traced,
        hreq, hdo]⟩

/-- Witness of C25: the ID `external/with/slashes`. -/
theorem serversService_GetExternal_endpoint_witness :
    ∃ server, serversService.GetExternal
        (scripted [Answer.single 200 ⟨"server", some 1⟩]).traced (0, [])
        "external/with/slashes" =
      .returned ((1, [.newRequest "GET"
          "/api/application/servers/external/external%2Fwith%2Fslashes" none none,
        .doCall (some (scriptedRequest "GET"
          "/api/application/servers/external/external%2Fwith%2Fslashes" none)) .item]),
        server, none) :=
  (serversService_GetExternal_endpoint (scripted [Answer.single 200 ⟨"server", some 1⟩])
    0 0 1 "external/with/slashes"
    (some (scriptedRequest "GET"
      "/api/application/servers/external/external%2Fwith%2Fslashes" none))
    ⟨"server", some 1⟩ (some ⟨200, [], false⟩) none rfl rfl).1

/-- C26, at the failing input. When the relationships of the response, their
password and the password's attributes are all present and the response has no
attributes, `processCreateOrRotateResponse` does not return the attributes with
`Password` set: it panics, writing `db.Password` through the nil `res.Attributes`. -/
theorem processCreateOrRotateResponse_nil_attributes (res : ClientDatabaseCreateResponse)
    (relationships : DatabaseRelationships) (password : PasswordEnvelope)
    (attributes : PasswordAttributes)
    (hattr : res.Attributes = none)
    (hrel : res.Relationships = some relationships)
    (hpw : relationships.Password = some password)
    (hpa : password.Attributes = some attributes) :
    processCreateOrRotateResponse (some res) = .panicked := by
  simp [processCreateOrRotateResponse, hattr, hrel, hpw, hpa]

/-- Witness of C26: a response with the password relationship and no attributes. -/
theorem processCreateOrRotateResponse_nil_attributes_witness :
    processCreateOrRotateResponse
        (some ⟨"server_database", none,
          some ⟨some ⟨"password", some ⟨"super-secret-password"⟩⟩⟩⟩) = .panicked :=
  processCreateOrRotateResponse_nil_attributes
    ⟨"server_database", none, some ⟨some ⟨"password", some ⟨"super-secret-password"⟩⟩⟩⟩
    ⟨some ⟨"password", some ⟨"super-secret-password"⟩⟩⟩
    ⟨"password", some ⟨"super-secret-password"⟩⟩ ⟨"super-secret-password"⟩ rfl rfl rfl rfl

theorem listFill_nil_entry {T : Type} (before : List (ListItem T))
    (after : List (Option (ListItem T))) :
    ∀ (i : Nat) (out : List (Option T)),
      crud.listFill (before.map some ++ none :: after) i out = .panicked := by
  induction before with
  | nil => intro i out; rfl
  | cons e rest ih =>
    intro i out
    simp only [List.map_cons, List.cons_append, crud.listFill]
    exact ih _ _

theorem fillTasks_eq_listFill (data : List (Option (ListItem Task))) :
    ∀ (i : Nat) (tasks : List (Option Task)),
      schedulesService.fillTasks data i tasks = crud.listFill data i tasks := by
  induction data with
  | nil => intro i tasks; rfl
  | cons a rest ih =>
    intro i tasks
    cases a with
    | none => rfl
    | some item => simp [schedulesService.fillTasks, crud.listFill, ih]

/-- C27, at the failing inputs. After a `Do` that succeeds with a schedule-detail
response whose relationships carry a task list, `schedulesService.Details` panics
instead of returning the schedule with its tasks in two cases: when the task list
holds a null entry, whose `Attributes` the loop reads, and when the response has no
schedule attributes, through which `schedule.Tasks` is written. -/
theorem schedulesService_Details_panics_on_nil {σ : Type}
    (c : RequesterAt σ ScheduleDetailResponse)
    (s s1 s2 : σ) (serverIdentifier : String) (scheduleID : Int)
    (req : Option HttpRequest) (res : ScheduleDetailResponse) (hres : Option HttpResponse)
    (hreq : c.NewRequest s "GET"
      ("/api/client/servers/" ++ serverIdentifier ++ "/schedules/" ++ toString scheduleID)
      none none = .returned (s1, req, none))
    (hdo : c.Do s1 req ScheduleDetailResponse.zero = .returned (s2, res, hres, none)) :
    (∀ relationships list (before : List (ListItem Task))
        (after : List (Option (ListItem Task))),
      res.Relationships = some relationships → relationships.Tasks = some list →
      list.Data = before.map some ++ none :: after →
      schedulesService.Details c s serverIdentifier scheduleID = .panicked) ∧
    (∀ relationships list,
      res.Attributes = none → res.Relationships = some relationships →
      relationships.Tasks = some list →
      schedulesService.Details c s serverIdentifier scheduleID = .panicked) := by
  refine ⟨?_, ?_⟩
  · intro relationships list before after h2 h3 h4
    simp only [schedulesService.Details, hreq, hdo, schedulesService.populateTasks, h2, h3,
      h4, fillTasks_eq_listFill, listFill_nil_entry]
  · intro relationships list h1 h2 h3
    simp only [schedulesService.Details, hreq, hdo, schedulesService.populateTasks, h1, h2, h3]
    cases schedulesService.fillTasks list.Data 0 (nils Task list.Data.length) <;> rfl

/-- Witness of C27: a schedule whose second task entry is null, and a response with
one task and no schedule attributes. -/
theorem schedulesService_Details_panics_on_nil_witness :
    schedulesService.Details (scheduleRequester nullTaskSchedule) 0 "srv" 1 = .panicked ∧
    schedulesService.Details (scheduleRequester noAttributesSchedule) 0 "srv" 1 = .panicked :=
  ⟨(schedulesService_Details_panics_on_nil (scheduleRequester nullTaskSchedule) 0 0 1 "srv" 1
      (some (scriptedRequest "GET" "/api/client/servers/srv/schedules/1" none))
      nullTaskSchedule (some ⟨200, [], false⟩) rfl rfl).1
      ⟨some ⟨"list", [some ⟨"schedule_task", some ⟨1, "command", "say hello"⟩⟩, none],
        Meta.zero⟩⟩
      ⟨"list", [some ⟨"schedule_task", some ⟨1, "command", "say hello"⟩⟩, none], Meta.zero⟩
      [⟨"schedule_task", some ⟨1, "command", "say hello"⟩⟩] [] rfl rfl rfl,
   (schedulesService_Details_panics_on_nil (scheduleRequester noAttributesSchedule) 0 0 1
      "srv" 1 (some (scriptedRequest "GET" "/api/client/servers/srv/schedules/1" none))
      noAttributesSchedule (some ⟨200, [], false⟩) rfl rfl).2
      ⟨some ⟨"list", [some ⟨"schedule_task", some ⟨1, "command", "say hello"⟩⟩], Meta.zero⟩⟩
      ⟨"list", [some ⟨"schedule_task", some ⟨1, "command", "say hello"⟩⟩], Meta.zero⟩
      rfl rfl rfl⟩


/-! ## Claims on nil entries, other key types and the test double -/

/-- C28, at the failing input. When `Do` decodes without error a paginated response
whose data array holds a null entry, `crud.List` panics: it reads `item.Attributes`
of the nil entry. -/
theorem crud_List_panics_on_null_entry {σ T : Type} (c : Requester σ T) (s s1 s2 : σ)
    (path : String) (opt : Option PaginationOptions) (req : Option HttpRequest)
    (resp : PaginatedResponse T) (res : Option HttpResponse)
    (before : List (ListItem T)) (after : List (Option (ListItem T)))
    (hreq : c.NewRequest s "GET" path none opt = .returned (s1, req, none))
    (hdo : c.DoPaginated s1 req (PaginatedResponse.zero T) = .returned (s2, resp, res, none))
    (hdata : resp.Data = before.map some ++ none :: after) :
    crud.List c s path opt = .panicked := by
  unfold crud.List
  simp only [hreq, hdo, hdata, listFill_nil_entry]

/-- Witness of C28: a page whose data array is `[null]`. -/
theorem crud_List_panics_on_null_entry_witness :
    crud.List (scripted [Answer.page 200 (⟨"list", [none], Meta.zero⟩ : PaginatedResponse Nat)])
      0 "/p" none = .panicked :=
  crud_List_panics_on_null_entry
    (scripted [Answer.page 200 (⟨"list", [none], Meta.zero⟩ : PaginatedResponse Nat)])
    0 0 1 "/p" none (some (scriptedRequest "GET" "/p" none)) ⟨"list", [none], Meta.zero⟩
    (some ⟨200, [], false⟩) [] [] rfl rfl rfl

/-- C29, at the failing input. For a key type that is neither `ApplicationKey` nor
`ClientKey` and a base URL that `url.ParseRequestURI` accepts, `NewClient` makes no
check of the key: it succeeds for every key, one without a prefix included. -/
theorem NewClient_other_key_type {ρ : Type} (lib : NetLib) (baseURL apiKey : String)
    (keyType : KeyType) (opts : List (ClientOption ρ)) (u : URL)
    (hurl : lib.ParseRequestURI baseURL = .inr u)
    (happ : keyType ≠ ApplicationKey) (hcl : keyType ≠ ClientKey) :
    NewClient lib baseURL apiKey keyType opts =
      (some (opts.foldl (fun c o => o c)
        { baseURL := baseURL, apiKey := apiKey,
          httpClient := some ⟨none, none, none, 10 * 1000000000⟩ }), none) := by
  simp only [NewClient, happ, hcl, false_and, if_false, hurl, applyOptions_eq_foldl]
  rfl

/-- Witness of C29: the key `noprefix` with the key type 2. -/
theorem NewClient_other_key_type_witness :
    NewClient sampleLib "https://fake-panel.com" "noprefix" 2 ([] : List (ClientOption Unit)) =
      (some { baseURL := "https://fake-panel.com", apiKey := "noprefix",
              httpClient := some ⟨none, none, none, 10 * 1000000000⟩ }, none) :=
  NewClient_other_key_type sampleLib "https://fake-panel.com" "noprefix" 2 [] fakePanel rfl
    (by decide) (by decide)


theorem MockRequester_Do_at {V : Type} (decode : Decoder V) (decodeErr : Decoder APIError)
    (m : MockRequester) (req : Option HttpRequest) (i : Nat) (response : MockResponse)
    (v : Option V)
    (hidx : m.CurrentIndex = (i : Int)) (hresp : m.Responses.get? i = some response)
    (herr : response.Err = none) :
    MockRequester.Do decode decodeErr m req v =
      (match (match v with
          | some tgt =>
            if response.StatusCode ≥ 200 ∧ response.StatusCode < 300 then
              (some (decode response.Body tgt).1, (decode response.Body tgt).2)
            else (some tgt, none)
          | none => (none, none) : Option V × Option GoError) with
        | (v1, some err) =>
          .returned ({ m with CurrentIndex := m.CurrentIndex + 1 }, v1, none, some err)
        | (v1, none) =>
          if response.StatusCode ≥ 400 then
            if response.Body.length > 0 then
              match decodeErr response.Body
                  { HTTPStatusCode := response.StatusCode, Errors := [] } with
              | (_, some err) =>
                .returned ({ m with CurrentIndex := m.CurrentIndex + 1 }, v1, none, some err)
              | (apiErr, none) =>
                .returned ({ m with CurrentIndex := m.CurrentIndex + 1 }, v1, none,
                  some (.apiError (some apiErr)))
            else
              .returned ({ m with CurrentIndex := m.CurrentIndex + 1 }, v1, none,
                some (.apiError (some { HTTPStatusCode := response.StatusCode, Errors := [] })))
          else
            .returned ({ m with CurrentIndex := m.CurrentIndex + 1 }, v1,
              some ⟨response.StatusCode, response.Body, false⟩, none)) := by
  have hlt : i < m.Responses.length := by
    by_contra hge
    rw [List.get?_eq_none.mpr (by omega)] at hresp
    exact absurd hresp (by simp)
  have hnot : ¬ (m.CurrentIndex ≥ (m.Responses.length : Int)) := by
    rw [hidx]
    omega
  unfold MockRequester.Do
  rw [if_neg hnot]
  simp only [hidx, Int.toNat_ofNat, hresp, herr]

/-- C30, amended. For a response with the same status and body, `MockRequester.Do`
and `Client.Do` agree on whether they return an error when the status is in
`[200,300)` or is at least 400, for every body and decode target. When the status is
below 200 or in `[300,400)`, `Client.Do` returns an error and `MockRequester.Do`
returns the response and no error. -/
theorem MockRequester_Do_status_classes {ρ ω V : Type} (exchange : Exchange ρ ω)
    (decodeErr : Decoder (Option APIError)) (mockDecodeErr : Decoder APIError)
    (decode : Decoder V) (c : Client ρ) (hc : HttpClient ρ) (w w1 : ω) (rq : HttpRequest)
    (m : MockRequester) (i : Nat) (status : Int) (body : Bytes) (v : Option V)
    (hhc : c.httpClient = some hc)
    (hex : exchange hc w rq = (w1, .inr ⟨status, body, false⟩))
    (hidx : m.CurrentIndex = (i : Int))
    (hresp : m.Responses.get? i = some ⟨status, body, none⟩) :
    (((200 ≤ status ∧ status < 300) ∨ status ≥ 400) →
      returnsError (MockRequester.Do decode mockDecodeErr m (some rq) v) =
        returnsError (Client.Do exchange decodeErr decode c w (some rq) v)) ∧
    ((status < 200 ∨ (300 ≤ status ∧ status < 400)) →
      returnsError (Client.Do exchange decodeErr decode c w (some rq) v) = true ∧
      returnsError (MockRequester.Do decode mockDecodeErr m (some rq) v) = false) := by
  have hmock := MockRequester_Do_at decode mockDecodeErr m (some rq) i ⟨status, body, none⟩ v
    hidx hresp rfl
  have hclient : (status < 200 ∨ status ≥ 300) →
      returnsError (Client.Do exchange decodeErr decode c w (some rq) v) = true := by
    intro hs
    rcases hd : decodeErr body (some { HTTPStatusCode := status, Errors := [] })
      with ⟨p, _ | cause⟩ <;> simp [Client.Do, hhc, hex, hs, hd, returnsError]
  constructor
  · rintro (h2 | h4)
    · have hn : ¬ (status < 200 ∨ status ≥ 300) := by omega
      have h400 : ¬ status ≥ 400 := by omega
      rw [hmock]
      cases v with
      | none => simp [Client.Do, hhc, hex, hn, h400, returnsError]
      | some tgt =>
        rcases hd : decode body tgt with ⟨tgt1, _ | cause⟩ <;>
          simp [Client.Do, hhc, hex, hn, h2, h400, hd, returnsError]
    · rw [hclient (Or.inr (by omega)), hmock]
      have h2 : ¬ (status ≥ 200 ∧ status < 300) := by omega
      cases v with
      | none =>
        simp only [h4, if_true]
        by_cases hb : body.length > 0
        · rcases hd : mockDecodeErr body { HTTPStatusCode := status, Errors := [] }
            with ⟨a, _ | cause⟩ <;> simp [hb, hd, returnsError]
        · simp [hb, returnsError]
      | some tgt =>
        simp only [h2, h4, if_true, if_false]
        by_cases hb : body.length > 0
        · rcases hd : mockDecodeErr body { HTTPStatusCode := status, Errors := [] }
            with ⟨a, _ | cause⟩ <;> simp [hb, hd, returnsError]
        · simp [hb, returnsError]
  · intro hs
    refine ⟨hclient (by omega), ?_⟩
    have h2 : ¬ (status ≥ 200 ∧ status < 300) := by omega
    have h400 : ¬ status ≥ 400 := by omega
    rw [hmock]
    cases v <;> simp [h2, h400, returnsError]

/-- Witness of C30: on a 404 with an empty body both return an error. -/
theorem MockRequester_Do_status_classes_witness :
    returnsError (MockRequester.Do (eofOnEmpty Nat) (eofOnEmpty APIError) (sampleMock 404 [])
        (some (scriptedRequest "GET" "/x" none)) (some 5)) =
      returnsError (Client.Do (fixedExchange 404 []) (eofOnEmpty (Option APIError))
        (eofOnEmpty Nat) panelClient 0 (some (scriptedRequest "GET" "/x" none)) (some 5)) :=
  (MockRequester_Do_status_classes (fixedExchange 404 []) (eofOnEmpty (Option APIError))
    (eofOnEmpty APIError) (eofOnEmpty Nat) panelClient ⟨none, none, none, tenSeconds⟩ 0 1
    (scriptedRequest "GET" "/x" none) (sampleMock 404 []) 0 404 [] (some 5)
    rfl rfl rfl rfl).1 (Or.inr (by decide))

/-- Counterexample to C30 as stated: on a response with status 301 and an empty
body, with a nil target, `Client.Do` returns an error and `MockRequester.Do` does
not. -/
theorem MockRequester_Do_301_disagrees :
    returnsError (MockRequester.Do (eofOnEmpty Nat) (eofOnEmpty APIError) (sampleMock 301 [])
        (some (scriptedRequest "GET" "/x" none)) none) ≠
      returnsError (Client.Do (fixedExchange 301 []) (eofOnEmpty (Option APIError))
        (eofOnEmpty Nat) panelClient 0 (some (scriptedRequest "GET" "/x" none)) none) := by
  decide


end Pterodactyl
